import Mathlib

/-!
# bitrot: the state store glue of `main.go`

A shallow embedding of `src/main.go` (state file naming, state directory
handling, loading and saving of the state database, and the top-level
control flow of `main`), together with the properties the specification
states about it.

Conventions of the embedding:

* Go strings are Lean `String`s; the bytes of a string are its UTF-8 encoding.
* Bytes and machine words are `Nat`s, reduced explicitly (`% 256`, `% 2^32`,
  `% 2^64`) where the Go type wraps around.
* The operating system is an explicit `World` value that every effectful
  function receives and returns; each system call appends an `Event` to the
  world's trace, so that "was never called" is a statement about the trace.
* Library behaviour the repository only calls (`filepath.Join`,
  `filepath.Abs`, the `DirTree` methods) is taken as a parameter.
-/

namespace Bitrot

/-! ## Standard library: `crypto/md5` -/

/-- UTF-8 encoding of one character, the bytes Go stores for it in a string. -/
def utf8Encode (c : Char) : List Nat :=
  let v := c.toNat
  if v < 0x80 then [v]
  else if v < 0x800 then [0xC0 + v / 64, 0x80 + v % 64]
  else if v < 0x10000 then [0xE0 + v / 4096, 0x80 + v / 64 % 64, 0x80 + v % 64]
  else [0xF0 + v / 262144, 0x80 + v / 4096 % 64, 0x80 + v / 64 % 64, 0x80 + v % 64]

/-- The byte sequence of a Go string. -/
def goBytes (s : String) : List Nat :=
  (s.data.map utf8Encode).flatten

/-- Per-round left-rotation amounts of MD5 (RFC 1321). -/
def md5Shift : List Nat :=
  [7, 12, 17, 22, 7, 12, 17, 22, 7, 12, 17, 22, 7, 12, 17, 22,
   5, 9, 14, 20, 5, 9, 14, 20, 5, 9, 14, 20, 5, 9, 14, 20,
   4, 11, 16, 23, 4, 11, 16, 23, 4, 11, 16, 23, 4, 11, 16, 23,
   6, 10, 15, 21, 6, 10, 15, 21, 6, 10, 15, 21, 6, 10, 15, 21]

/-- The sine-derived additive constants of MD5 (RFC 1321). -/
def md5K : List Nat :=
  [0xd76aa478, 0xe8c7b756, 0x242070db, 0xc1bdceee,
   0xf57c0faf, 0x4787c62a, 0xa8304613, 0xfd469501,
   0x698098d8, 0x8b44f7af, 0xffff5bb1, 0x895cd7be,
   0x6b901122, 0xfd987193, 0xa679438e, 0x49b40821,
   0xf61e2562, 0xc040b340, 0x265e5a51, 0xe9b6c7aa,
   0xd62f105d, 0x02441453, 0xd8a1e681, 0xe7d3fbc8,
   0x21e1cde6, 0xc33707d6, 0xf4d50d87, 0x455a14ed,
   0xa9e3e905, 0xfcefa3f8, 0x676f02d9, 0x8d2a4c8a,
   0xfffa3942, 0x8771f681, 0x6d9d6122, 0xfde5380c,
   0xa4beea44, 0x4bdecfa9, 0xf6bb4b60, 0xbebfbc70,
   0x289b7ec6, 0xeaa127fa, 0xd4ef3085, 0x04881d05,
   0xd9d4d039, 0xe6db99e5, 0x1fa27cf8, 0xc4ac5665,
   0xf4292244, 0x432aff97, 0xab9423a7, 0xfc93a039,
   0x655b59c3, 0x8f0ccc92, 0xffeff47d, 0x85845dd1,
   0x6fa87e4f, 0xfe2ce6e0, 0xa3014314, 0x4e0811a1,
   0xf7537e82, 0xbd3af235, 0x2ad7d2bb, 0xeb86d391]

/-- Rotate a 32-bit word left by `c` bits. -/
def rotl32 (x c : Nat) : Nat :=
  ((x <<< c) ||| (x >>> (32 - c))) % 2 ^ 32

/-- Bitwise complement of a 32-bit word. -/
def not32 (x : Nat) : Nat :=
  (2 ^ 32 - 1) ^^^ (x % 2 ^ 32)

/-- The little-endian 32-bit word at byte offset `4 * j` of a block. -/
def leWord (blk : List Nat) (j : Nat) : Nat :=
  blk.getD (4 * j) 0 % 256 + blk.getD (4 * j + 1) 0 % 256 * 2 ^ 8
    + blk.getD (4 * j + 2) 0 % 256 * 2 ^ 16 + blk.getD (4 * j + 3) 0 % 256 * 2 ^ 24

/-- The four chaining words of MD5. -/
structure MD5State where
  a : Nat
  b : Nat
  c : Nat
  d : Nat
  deriving DecidableEq, Repr

/-- Initial chaining value (`init0` .. `init3` of `crypto/md5`). -/
def md5Init : MD5State :=
  { a := 0x67452301, b := 0xEFCDAB89, c := 0x98BADCFE, d := 0x10325476 }

/-- One of the 64 steps of the MD5 compression function on block `blk`. -/
def md5Step (blk : List Nat) (st : MD5State) (i : Nat) : MD5State :=
  let f :=
    if i < 16 then (st.b &&& st.c) ||| (not32 st.b &&& st.d)
    else if i < 32 then (st.d &&& st.b) ||| (not32 st.d &&& st.c)
    else if i < 48 then st.b ^^^ st.c ^^^ st.d
    else st.c ^^^ (st.b ||| not32 st.d)
  let g :=
    if i < 16 then i
    else if i < 32 then (5 * i + 1) % 16
    else if i < 48 then (3 * i + 5) % 16
    else (7 * i) % 16
  let t := (f + st.a + md5K.getD i 0 + leWord blk g) % 2 ^ 32
  { a := st.d, b := (st.b + rotl32 t (md5Shift.getD i 0)) % 2 ^ 32, c := st.b, d := st.c }

/-- The MD5 compression function: 64 steps, then feed-forward. -/
def md5Block (st : MD5State) (blk : List Nat) : MD5State :=
  let r := (List.range 64).foldl (md5Step blk) st
  { a := (st.a + r.a) % 2 ^ 32, b := (st.b + r.b) % 2 ^ 32,
    c := (st.c + r.c) % 2 ^ 32, d := (st.d + r.d) % 2 ^ 32 }

/-- The `k` low-order bytes of `n`, least significant first. -/
def leBytes : Nat → Nat → List Nat
  | 0, _ => []
  | k + 1, n => n % 256 :: leBytes k (n / 256)

/-- MD5 padding: a `0x80` byte, zeros up to 56 mod 64, then the bit length
as a 64-bit little-endian integer. -/
def md5Pad (msg : List Nat) : List Nat :=
  msg ++ [0x80] ++ List.replicate ((55 + 64 - msg.length % 64) % 64) 0
    ++ leBytes 8 (msg.length * 8 % 2 ^ 64)

/-- The 16-byte MD5 digest of a byte sequence. -/
def md5Sum (msg : List Nat) : List Nat :=
  let p := md5Pad msg
  let st := (List.range (p.length / 64)).foldl
    (fun st i => md5Block st ((p.drop (64 * i)).take 64)) md5Init
  leBytes 4 st.a ++ leBytes 4 st.b ++ leBytes 4 st.c ++ leBytes 4 st.d

/-- A `hash.Hash` as `md5.New()` returns it: it remembers what was written,
and `Sum` appends the digest of that to its argument. -/
structure Hash where
  written : List Nat
  deriving DecidableEq, Repr

/-- The Go call `md5.New()`. -/
def md5New : Hash := { written := [] }

/-- The Go call `io.WriteString(h, s)`. -/
def Hash.writeString (h : Hash) (s : String) : Hash :=
  { written := h.written ++ goBytes s }

/-- The Go call `h.Sum(b)`. -/
def Hash.sum (h : Hash) (b : List Nat) : List Nat :=
  b ++ md5Sum h.written

/-! ## Standard library: `fmt` -/

/-- The digit table `ldigits` of package `fmt`. -/
def ldigits : List Char := "0123456789abcdefx".data

/-- What `fmt` prints for a byte slice under the verb `%x`: for each byte the
digits `ldigits[c>>4]` and `ldigits[c&0xF]`. -/
def fmtSbx (b : List Nat) : List Char :=
  (b.map fun c => [ldigits.getD ((c % 256) >>> 4) '0', ldigits.getD ((c % 256) &&& 0xF) '0']).flatten

/-- The Go call `fmt.Sprintf(format, arg)` for a format whose only verb is `%x`
and a byte-slice operand: literal characters are copied, `%x` is replaced by
the hexadecimal rendering of the operand. -/
def sprintf : List Char → List Nat → List Char
  | [], _ => []
  | [c], _ => [c]
  | c :: d :: rest, arg =>
    if c = '%' ∧ d = 'x' then fmtSbx arg ++ sprintf rest arg
    else c :: sprintf (d :: rest) arg

/-! ## `main.go`: constants and options -/

/-- Name of the state directory under the user's home directory. -/
def stateDirPrefix : String := ".bitrot"

/-- Mode the state directory is created with. -/
def stateDirMode : Nat := 0o770

/-- The command-line options, the package-level variable `opt`. -/
structure cmdLineOpts where
  root : String
  verbose : Bool
  deriving DecidableEq, Repr

/-- Return a unique state db file based on root path. -/
def stateFile (root : String) : String :=
  let hd := md5New
  let hd := hd.writeString root
  String.mk (sprintf "bitrot_%x.db".data (hd.sum []))

/-! ## The operating system -/

/-- What a path of the file system holds (as `os.Stat` sees it, symbolic
links followed). -/
inductive Node where
  | dir
  | regular (content : List Nat)
  | other
  deriving DecidableEq, Repr

/-- The Go method chain `fi.Mode().IsDir()`. -/
def Node.isDir : Node → Bool
  | .dir => true
  | _ => false

/-- The Go method chain `fi.Mode().IsRegular()`. -/
def Node.isRegular : Node → Bool
  | .regular _ => true
  | _ => false

/-- The error values that reach `main`. -/
inductive Err where
  | userLookup
  | statStateDir
  | mkdirStateDir
  | nonDirectory (cdir : String)
  | usage
  | absPath (arg : String)
  | openFile (path : String)
  | createFile (path : String)
  | dirTree (code : Nat)
  deriving DecidableEq, Repr

/-- The observable steps of a run, in the order they happen. -/
inductive Event where
  | userCurrent
  | stat (path : String)
  | mkdir (path : String) (mode : Nat)
  | open (path : String)
  | create (path : String)
  | close (path : String) (ok : Bool)
  | load (path : String)
  | save (path : String)
  | compare
  | fatal (context : String) (err : Err)
  deriving DecidableEq, Repr

/-- The state of the process and of the machine it runs on. The `...Denied`
fields say which system calls fail for reasons the file system map does not
show (permissions, I/O errors); `room` bounds what can be written to a path. -/
structure World where
  opt : cmdLineOpts
  home : Option String
  fs : String → Option Node
  statDenied : String → Bool
  mkdirDenied : String → Bool
  openDenied : String → Bool
  createDenied : String → Bool
  closeFails : String → Bool
  room : String → Option Nat
  trace : List Event

/-- Append an event to the trace. -/
def World.log (w : World) (ev : Event) : World :=
  { w with trace := w.trace ++ [ev] }

/-- Replace what a path holds. -/
def World.setNode (w : World) (p : String) (n : Node) : World :=
  { w with fs := fun q => if q = p then some n else w.fs q }

/-- The Go call `user.Current()`: the home directory, or `none` on error. -/
def userCurrent (w : World) : Option String × World :=
  (w.home, w.log .userCurrent)

/-- Why `os.Stat` failed. -/
inductive StatErr where
  | notExist
  | other
  deriving DecidableEq, Repr

/-- The Go predicate `os.IsNotExist(err)` on the error of `os.Stat`. -/
def StatErr.isNotExist : StatErr → Bool
  | .notExist => true
  | .other => false

/-- The Go call `os.Stat(p)`. -/
def osStat (w : World) (p : String) : Except StatErr Node × World :=
  let w1 := w.log (.stat p)
  if w.statDenied p then (.error .other, w1)
  else
    match w.fs p with
    | none => (.error .notExist, w1)
    | some n => (.ok n, w1)

/-- The Go call `os.Mkdir(p, mode)`: `true` when the directory was created. -/
def osMkdir (w : World) (p : String) (mode : Nat) : Bool × World :=
  let w1 := w.log (.mkdir p mode)
  if w.mkdirDenied p then (false, w1)
  else
    match w.fs p with
    | some _ => (false, w1)
    | none => (true, w1.setNode p .dir)

/-- The Go call `os.Open(p)`: the stream of the file's bytes, or `none` on error. -/
def osOpen (w : World) (p : String) : Option (List Nat) × World :=
  let w1 := w.log (.open p)
  if w.openDenied p then (none, w1)
  else
    match w.fs p with
    | none => (none, w1)
    | some (.regular bs) => (some bs, w1)
    | some _ => (some [], w1)

/-- An `io.Writer` on a file: the bytes it accepted, and how many more it
will take before writes fail (`none`: no bound). -/
structure Writer where
  data : List Nat
  room : Option Nat
  deriving DecidableEq, Repr

/-- The Go call `w.Write(bs)`: `false` is a failed (short) write. -/
def Writer.write (w : Writer) (bs : List Nat) : Writer × Bool :=
  match w.room with
  | none => ({ w with data := w.data ++ bs }, true)
  | some r =>
    if bs.length ≤ r then ({ data := w.data ++ bs, room := some (r - bs.length) }, true)
    else ({ data := w.data ++ bs.take r, room := some 0 }, false)

/-- The Go call `os.Create(p)`: opens for writing, creating the file or
truncating a regular file to length zero; `none` on error. -/
def osCreate (w : World) (p : String) : Option Writer × World :=
  let w1 := w.log (.create p)
  if w.createDenied p then (none, w1)
  else
    match w.fs p with
    | some .dir => (none, w1)
    | some .other => (some { data := [], room := w.room p }, w1)
    | _ => (some { data := [], room := w.room p }, w1.setNode p (.regular []))

/-- What the writer accepted ends up in the file it was created on. -/
def World.flush (w : World) (p : String) (wr : Writer) : World :=
  match w.fs p with
  | some (.regular _) => w.setNode p (.regular wr.data)
  | _ => w

/-- The Go call `f.Close()`; the trace records whether it succeeded. -/
def osClose (w : World) (p : String) : Bool × World :=
  (!w.closeFails p, w.log (.close p (!w.closeFails p)))

/-! ## Collaborators of `main.go` -/

/-- What `main.go` calls but does not define: two functions of
`path/filepath`, and the `DirTree` type with its constructor and methods.
`Load` reads a stream into the tree and may return an error; `Save` writes
the tree to a writer and may return an error; `Compare` reads the file
system and returns nothing to `main`, so `none` stands for a `Compare` that
ended the process itself. -/
structure Lib (T : Type) where
  join : String → String → String
  abs : String → Option String
  NewDirTree : String → List String → T
  Load : T → List Nat → T × Option Err
  Save : T → Writer → Writer × Option Err
  Compare : T → (String → Option Node) → Option T

/-- What `flag.Parse` made of the command line: the verbosity flag and the
positional arguments (`flag.Args()`). -/
structure Invocation where
  verbose : Bool
  args : List String
  deriving DecidableEq, Repr

/-! ## `main.go`: functions -/

/-- Return a directory for the state database. The directory is created if
it doesn't yet exist. -/
def stateDir {T : Type} (L : Lib T) (w : World) : (String × Option Err) × World :=
  match userCurrent w with
  | (none, w1) => (("", some .userLookup), w1)
  | (some homeDir, w1) =>
    let cdir := L.join homeDir stateDirPrefix
    match osStat w1 cdir with
    | (.error e, w2) =>
      if !e.isNotExist then (("", some .statStateDir), w2)
      else
        match osMkdir w2 cdir stateDirMode with
        | (false, w3) => (("", some .mkdirStateDir), w3)
        | (true, w3) => ((cdir, none), w3)
    | (.ok fi, w2) =>
      if !fi.isDir then (("", some (.nonDirectory cdir)), w2)
      else ((cdir, none), w2)

/-- Parse command-line flags. -/
def parseFlags {T : Type} (L : Lib T) (inv : Invocation) (w : World) : Option Err × World :=
  let w1 := { w with opt := { w.opt with verbose := inv.verbose } }
  if inv.args.length ≠ 1 then (some .usage, w1)
  else
    match L.abs (inv.args.getD 0 "") with
    | none => (some (.absPath (inv.args.getD 0 "")), w1)
    | some root => (none, { w1 with opt := { w1.opt with root := root } })

/-- Load the state database from disk, if it exists. -/
def loadStateFromFile {T : Type} (L : Lib T) (d : T) (w : World) : Option Err × T × World :=
  match stateDir L w with
  | ((_, some err), w1) => (some err, d, w1)
  | ((cdir, none), w1) =>
    let cfile := L.join cdir (stateFile w1.opt.root)
    match osStat w1 cfile with
    | (.ok fi, w2) =>
      if fi.isRegular then
        match osOpen w2 cfile with
        | (none, w3) => (some (.openFile cfile), d, w3)
        | (some r, w3) =>
          match L.Load d r with
          | (d1, some err) => (some err, d1, (osClose (w3.log (.load cfile)) cfile).2)
          | (d1, none) => (none, d1, (osClose (w3.log (.load cfile)) cfile).2)
      else (none, d, w2)
    | (.error _, w2) => (none, d, w2)

/-- Save state to file. -/
def saveStateToFile {T : Type} (L : Lib T) (d : T) (w : World) : Option Err × World :=
  match stateDir L w with
  | ((_, some err), w1) => (some err, w1)
  | ((cdir, none), w1) =>
    let cfile := L.join cdir (stateFile w1.opt.root)
    match osCreate w1 cfile with
    | (none, w2) => (some (.createFile cfile), w2)
    | (some wr, w2) =>
      match L.Save d wr with
      | (wr1, some err) => (some err, (osClose ((w2.log (.save cfile)).flush cfile wr1) cfile).2)
      | (wr1, none) => (none, (osClose ((w2.log (.save cfile)).flush cfile wr1) cfile).2)

/-- The Go call `log.Fatal(...)`: print the message and end the process with
exit status 1. -/
def logFatal (context : String) (err : Err) (w : World) : Nat × World :=
  (1, w.log (.fatal context err))

/-- The method call `dt.Compare()` as `main` makes it. -/
def compare {T : Type} (L : Lib T) (d : T) (w : World) : Option T × World :=
  (L.Compare d w.fs, w.log .compare)

/-- The program: exit status and final world. -/
def main {T : Type} (L : Lib T) (inv : Invocation) (w : World) : Nat × World :=
  match parseFlags L inv w with
  | (some err, w1) => logFatal "" err w1
  | (none, w1) =>
    let dt := L.NewDirTree w1.opt.root []
    match loadStateFromFile L dt w1 with
    | (some err, _, w2) => logFatal "Error loading state DB: " err w2
    | (none, dt1, w2) =>
      match compare L dt1 w2 with
      | (none, w3) => (1, w3)
      | (some dt2, w3) =>
        match saveStateToFile L dt2 w3 with
        | (some err, w4) => logFatal "Error saving state DB: " err w4
        | (none, w4) => (0, w4)

/-! ## The state file name as the specification words it -/

/-- The lowercase hexadecimal digit of a value below 16. -/
def hexDigit (n : Nat) : Char :=
  if n < 10 then Char.ofNat (48 + n) else Char.ofNat (87 + n)

/-- Lowercase hexadecimal rendering of a byte sequence: two digits per byte,
high nibble first. -/
def lowerHex (bs : List Nat) : String :=
  String.mk (bs.map fun b => [hexDigit (b / 16 % 16), hexDigit (b % 16)]).flatten

/-! ## Example collaborators and worlds -/

/-- A small `DirTree` for examples: the root it is bound to and the bytes of
its state. -/
structure ExTree where
  root : String
  state : List Nat
  deriving DecidableEq, Repr

/-- Example collaborators: paths are joined with a slash, a zero-byte stream
does not decode, saving writes the state with one `Write`, and comparing ends
the process when the root is not a directory. -/
def exLib : Lib ExTree :=
  { join := fun a b => a ++ "/" ++ b
    abs := fun p => some p
    NewDirTree := fun root _ => { root := root, state := [] }
    Load := fun d r =>
      if r = [] then (d, some (.dirTree 1)) else ({ d with state := r }, none)
    Save := fun d wr =>
      match wr.write d.state with
      | (wr1, true) => (wr1, none)
      | (wr1, false) => (wr1, some (.dirTree 2))
    Compare := fun d fs => if fs d.root = some .dir then some d else none }

/-- Where the example state file of root `/data` lives. -/
def exStatePath : String := "/home/u/.bitrot/" ++ stateFile "/data"

/-- An example file system: the directory `/data`, the regular file
`/data/a.txt`, the state directory, and `state` at the state file of `/data`. -/
def exFs (state : Option Node) : String → Option Node := fun p =>
  if p = "/data" then some .dir
  else if p = "/data/a.txt" then some (.regular [104, 105])
  else if p = "/home/u/.bitrot" then some .dir
  else if p = exStatePath then state
  else none

/-- An example world on a file system: user `u`, no system call denied, no
bound on writes, nothing logged yet. -/
def exWorld (fs : String → Option Node) : World :=
  { opt := { root := "", verbose := false }
    home := some "/home/u"
    fs := fs
    statDenied := fun _ => false
    mkdirDenied := fun _ => false
    openDenied := fun _ => false
    createDenied := fun _ => false
    closeFails := fun _ => false
    room := fun _ => none
    trace := [] }

/-- The command line `bitrot /data`. -/
def exInv : Invocation := { verbose := false, args := ["/data"] }

/-- The example world after `bitrot /data` was parsed, with a prior state of
three bytes and room for only `n` more bytes on the state file. -/
def exFullDisk (n : Nat) : World :=
  { exWorld (exFs (some (.regular [1, 2, 3]))) with
    opt := { root := "/data", verbose := false }
    room := fun _ => some n }

/-- The example world of a first run in which closing any file fails. -/
def exCloseFails : World :=
  { exWorld (exFs none) with closeFails := fun _ => true }

/-- The example world of a first run in which `os.Stat` of the state file is
denied while a state file is there. -/
def exStatDenied : World :=
  { exWorld (exFs (some (.regular [1, 2, 3]))) with
    statDenied := fun p => decide (p = exStatePath) }

/-- An example file system whose `/data/a.txt` is a regular file, with a
state directory and a one-byte state file for the root `/data/a.txt`. -/
def exFsFileRoot : String → Option Node := fun p =>
  if p = "/data/a.txt" then some (.regular [104, 105])
  else if p = "/home/u/.bitrot" then some .dir
  else if p = "/home/u/.bitrot/" ++ stateFile "/data/a.txt" then some (.regular [1])
  else none

/-- The command line `bitrot /data/a.txt`. -/
def exInvFile : Invocation := { verbose := false, args := ["/data/a.txt"] }

/-! ## The comparison of two tree states, from the specification -/

/-- Modelled from the spec: a Tree Entry (section 3). The `DirTree` type and
its methods are not part of `main.go`. -/
structure TreeEntry where
  path : String
  digest : List Nat
  size : Nat
  modTime : Nat
  deriving DecidableEq, Repr

/-- Modelled from the spec: a Tree State (section 3), the mapping from path
to Tree Entry, kept as the list of its entries. -/
structure TreeState where
  entries : List TreeEntry
  deriving DecidableEq, Repr

/-- The key set of a tree state. -/
def TreeState.paths (s : TreeState) : List String :=
  s.entries.map (·.path)

/-- The entry a tree state holds for a path. -/
def TreeState.entry? (s : TreeState) (p : String) : Option TreeEntry :=
  s.entries.find? fun e => e.path = p

/-- The classified delta of a comparison: four sets of paths. -/
structure Delta where
  added : List String
  removed : List String
  unchanged : List String
  changed : List String
  deriving DecidableEq, Repr

/-- Modelled from the spec: the contract of `DirTree.Compare` (section 4.3),
which is not part of `main.go`. Added: present in current, absent in loaded.
Removed: present in loaded, absent in current. Unchanged: present in both
with identical digest. Changed: present in both with different digest. -/
def classify (loaded current : TreeState) : Delta :=
  { added := current.paths.filter fun p => (loaded.entry? p).isNone
    removed := loaded.paths.filter fun p => (current.entry? p).isNone
    unchanged := loaded.paths.filter fun p =>
      match loaded.entry? p, current.entry? p with
      | some a, some b => decide (a.digest = b.digest)
      | _, _ => false
    changed := loaded.paths.filter fun p =>
      match loaded.entry? p, current.entry? p with
      | some a, some b => decide (a.digest ≠ b.digest)
      | _, _ => false }

/-- The prior state of the specification's scenario: `a.txt` and `b.txt`. -/
def exLoaded : TreeState :=
  { entries := [{ path := "a.txt", digest := md5Sum (goBytes "hello"), size := 5, modTime := 1 },
                { path := "b.txt", digest := md5Sum (goBytes "X"), size := 1, modTime := 1 }] }

/-- The current state of the specification's scenario: `b.txt` was deleted. -/
def exCurrent : TreeState :=
  { entries := [{ path := "a.txt", digest := md5Sum (goBytes "hello"), size := 5, modTime := 2 }] }

/-! ## Facts about the name -/

/-- `leBytes k` yields `k` bytes. -/
theorem leBytes_length (k n : Nat) : (leBytes k n).length = k := by
  induction k generalizing n with
  | zero => rfl
  | succ k ih => simp [leBytes, ih]

/-- An MD5 digest has 16 bytes. -/
theorem md5Sum_length (msg : List Nat) : (md5Sum msg).length = 16 := by
  simp [md5Sum, leBytes_length]

set_option maxRecDepth 100000 in
/-- On every byte value the digit table of `fmt` gives the two lowercase
hexadecimal digits. -/
theorem fmt_digits_below (x : Nat) (hx : x < 256) :
    ldigits.getD (x >>> 4) '0' = hexDigit (x / 16 % 16)
      ∧ ldigits.getD (x &&& 0xF) '0' = hexDigit (x % 16)
      ∧ hexDigit (x / 16 % 16) ∈ "0123456789abcdef".data
      ∧ hexDigit (x % 16) ∈ "0123456789abcdef".data := by
  revert x
  decide

/-- The digits `fmt` prints for a byte are its two hexadecimal digits. -/
theorem fmt_digits (c : Nat) :
    ldigits.getD ((c % 256) >>> 4) '0' = hexDigit (c / 16 % 16)
      ∧ ldigits.getD ((c % 256) &&& 0xF) '0' = hexDigit (c % 16) := by
  have h := fmt_digits_below (c % 256) (Nat.mod_lt _ (by norm_num))
  have e1 : c % 256 / 16 % 16 = c / 16 % 16 := by omega
  have e2 : c % 256 % 16 = c % 16 := by omega
  rw [e1, e2] at h
  exact ⟨h.1, h.2.1⟩

/-- Both hexadecimal digits of a byte are among `0123456789abcdef`. -/
theorem hexDigit_mem (c : Nat) :
    hexDigit (c / 16 % 16) ∈ "0123456789abcdef".data
      ∧ hexDigit (c % 16) ∈ "0123456789abcdef".data := by
  have h := fmt_digits_below (c % 256) (Nat.mod_lt _ (by norm_num))
  have e1 : c % 256 / 16 % 16 = c / 16 % 16 := by omega
  have e2 : c % 256 % 16 = c % 16 := by omega
  rw [e1, e2] at h
  exact ⟨h.2.2.1, h.2.2.2⟩

/-- The verb `%x` on a byte slice is its lowercase hexadecimal rendering. -/
theorem fmtSbx_eq_lowerHex (bs : List Nat) : fmtSbx bs = (lowerHex bs).data := by
  induction bs with
  | nil => rfl
  | cons b bs ih =>
    simp only [fmtSbx, lowerHex, List.map_cons, List.flatten_cons] at ih ⊢
    rw [ih, (fmt_digits b).1, (fmt_digits b).2]

/-- The hexadecimal rendering has two characters per byte. -/
theorem lowerHex_length (bs : List Nat) : (lowerHex bs).data.length = 2 * bs.length := by
  induction bs with
  | nil => rfl
  | cons b bs ih =>
    simp only [lowerHex, List.map_cons, List.flatten_cons, List.length_append,
      List.length_cons, List.length_nil] at ih ⊢
    omega

/-- The hexadecimal rendering uses the characters `0123456789abcdef` only. -/
theorem lowerHex_chars (bs : List Nat) :
    ∀ c ∈ (lowerHex bs).data, c ∈ "0123456789abcdef".data := by
  intro c hc
  have h : ∃ a ∈ bs, c = hexDigit (a / 16 % 16) ∨ c = hexDigit (a % 16) := by
    simpa [lowerHex] using hc
  obtain ⟨a, -, rfl | rfl⟩ := h
  · exact (hexDigit_mem a).1
  · exact (hexDigit_mem a).2

/-- The format `bitrot_%x.db` applied to a byte slice. -/
theorem sprintf_stateFile (arg : List Nat) :
    sprintf "bitrot_%x.db".data arg = "bitrot_".data ++ fmtSbx arg ++ ".db".data := by
  simp [sprintf]

/-- The characters of a state file name. -/
theorem stateFile_data (root : String) :
    (stateFile root).data
      = "bitrot_".data ++ (lowerHex (md5Sum (goBytes root))).data ++ ".db".data := by
  show sprintf "bitrot_%x.db".data ([] ++ md5Sum ([] ++ goBytes root)) = _
  rw [List.nil_append, List.nil_append, sprintf_stateFile, fmtSbx_eq_lowerHex]

/-! ## Facts about `stateDir` -/

/-- The six ways `stateDir` can run, each with the world it leaves. -/
theorem stateDir_outcomes {T : Type} (L : Lib T) (w : World) :
    (w.home = none ∧ stateDir L w = (("", some .userLookup), w.log .userCurrent))
    ∨ ∃ h, w.home = some h ∧
      ((w.statDenied (L.join h stateDirPrefix) = true
          ∧ stateDir L w = (("", some .statStateDir),
              (w.log .userCurrent).log (.stat (L.join h stateDirPrefix))))
      ∨ (w.statDenied (L.join h stateDirPrefix) = false
          ∧ w.fs (L.join h stateDirPrefix) = none
          ∧ w.mkdirDenied (L.join h stateDirPrefix) = true
          ∧ stateDir L w = (("", some .mkdirStateDir),
              ((w.log .userCurrent).log (.stat (L.join h stateDirPrefix))).log
                (.mkdir (L.join h stateDirPrefix) stateDirMode)))
      ∨ (w.statDenied (L.join h stateDirPrefix) = false
          ∧ w.fs (L.join h stateDirPrefix) = none
          ∧ w.mkdirDenied (L.join h stateDirPrefix) = false
          ∧ stateDir L w = ((L.join h stateDirPrefix, none),
              (((w.log .userCurrent).log (.stat (L.join h stateDirPrefix))).log
                (.mkdir (L.join h stateDirPrefix) stateDirMode)).setNode
                  (L.join h stateDirPrefix) .dir))
      ∨ (w.statDenied (L.join h stateDirPrefix) = false
          ∧ (∃ n, w.fs (L.join h stateDirPrefix) = some n ∧ n.isDir = false)
          ∧ stateDir L w = (("", some (.nonDirectory (L.join h stateDirPrefix))),
              (w.log .userCurrent).log (.stat (L.join h stateDirPrefix))))
      ∨ (w.statDenied (L.join h stateDirPrefix) = false
          ∧ w.fs (L.join h stateDirPrefix) = some .dir
          ∧ stateDir L w = ((L.join h stateDirPrefix, none),
              (w.log .userCurrent).log (.stat (L.join h stateDirPrefix))))) := by
  rcases hh : w.home with _ | home
  · left
    simp [stateDir, userCurrent, hh, World.log]
  · right
    refine ⟨home, rfl, ?_⟩
    rcases hs : w.statDenied (L.join home stateDirPrefix) with _ | _
    · rcases hf : w.fs (L.join home stateDirPrefix) with _ | n
      · rcases hm : w.mkdirDenied (L.join home stateDirPrefix) with _ | _
        · simp [stateDir, userCurrent, osStat, osMkdir, hh, hs, hf, hm, World.log,
            World.setNode, StatErr.isNotExist]
        · simp [stateDir, userCurrent, osStat, osMkdir, hh, hs, hf, hm, World.log,
            World.setNode, StatErr.isNotExist]
      · cases n <;>
          simp [stateDir, userCurrent, osStat, osMkdir, hh, hs, hf, World.log,
            World.setNode, StatErr.isNotExist, Node.isDir]
    · simp [stateDir, userCurrent, osStat, osMkdir, hh, hs, World.log, World.setNode,
        StatErr.isNotExist]

/-- Events `stateDir` logs: the user lookup, `os.Stat` and `os.Mkdir`. -/
theorem stateDir_trace {T : Type} (L : Lib T) (w : World) :
    ∃ evs, (stateDir L w).2.trace = w.trace ++ evs
      ∧ ∀ ev ∈ evs, ev = .userCurrent ∨ (∃ p, ev = .stat p) ∨ ∃ p m, ev = .mkdir p m := by
  rcases stateDir_outcomes L w with ⟨-, h⟩ | ⟨home, -, ⟨-, h⟩ | ⟨-, -, -, h⟩ | ⟨-, -, -, h⟩
    | ⟨-, -, h⟩ | ⟨-, -, h⟩⟩ <;> rw [h] <;> simp [World.log, World.setNode]

/-- Apart from the trace and the file system, `stateDir` leaves the world as it was. -/
theorem stateDir_frame {T : Type} (L : Lib T) (w : World) :
    (stateDir L w).2.opt = w.opt ∧ (stateDir L w).2.home = w.home
      ∧ (stateDir L w).2.statDenied = w.statDenied
      ∧ (stateDir L w).2.mkdirDenied = w.mkdirDenied
      ∧ (stateDir L w).2.openDenied = w.openDenied
      ∧ (stateDir L w).2.createDenied = w.createDenied
      ∧ (stateDir L w).2.closeFails = w.closeFails
      ∧ (stateDir L w).2.room = w.room := by
  rcases stateDir_outcomes L w with ⟨-, h⟩ | ⟨home, -, ⟨-, h⟩ | ⟨-, -, -, h⟩ | ⟨-, -, -, h⟩
    | ⟨-, -, h⟩ | ⟨-, -, h⟩⟩ <;> rw [h] <;> simp [World.log, World.setNode]

/-- The only change `stateDir` makes to the file system is a directory where
nothing was. -/
theorem stateDir_fs {T : Type} (L : Lib T) (w : World) (q : String) :
    (stateDir L w).2.fs q = w.fs q ∨ (w.fs q = none ∧ (stateDir L w).2.fs q = some .dir) := by
  rcases stateDir_outcomes L w with ⟨-, h⟩ | ⟨home, -, ⟨-, h⟩ | ⟨-, -, -, h⟩ | ⟨-, hn, -, h⟩
    | ⟨-, -, h⟩ | ⟨-, -, h⟩⟩ <;> rw [h] <;> simp [World.log, World.setNode]
  by_cases hq : q = L.join home stateDirPrefix
  · subst hq; simp [hn]
  · simp [hq]

/-- A failing `stateDir` returns the empty path and leaves the file system alone. -/
theorem stateDir_error {T : Type} (L : Lib T) (w : World) (e : Err)
    (he : (stateDir L w).1.2 = some e) :
    (stateDir L w).1.1 = "" ∧ (stateDir L w).2.fs = w.fs := by
  rcases stateDir_outcomes L w with ⟨-, h⟩ | ⟨home, -, ⟨-, h⟩ | ⟨-, -, -, h⟩ | ⟨-, -, -, h⟩
    | ⟨-, -, h⟩ | ⟨-, -, h⟩⟩ <;> rw [h] at he ⊢ <;> simp [World.log] at he ⊢

/-- A succeeding `stateDir` returns the joined path, which is then a directory. -/
theorem stateDir_ok {T : Type} (L : Lib T) (w : World) (p : String)
    (hp : (stateDir L w).1 = (p, none)) :
    ∃ h, w.home = some h ∧ p = L.join h stateDirPrefix
      ∧ (stateDir L w).2.fs p = some .dir := by
  rcases stateDir_outcomes L w with ⟨-, h⟩ | ⟨home, hh, ⟨-, h⟩ | ⟨-, -, -, h⟩ | ⟨-, -, -, h⟩
    | ⟨-, -, h⟩ | ⟨-, hd, h⟩⟩ <;> rw [h] at hp ⊢ <;> simp [World.log, World.setNode] at hp ⊢
  · exact ⟨home, hh, hp.symm, by simp [← hp]⟩
  · exact ⟨home, hh, hp.symm, by simp [← hp, hd]⟩

/-! ## Environment errors -/

/-- `loadStateFromFile` hands a `stateDir` error back unchanged, in the world
`stateDir` left. -/
theorem load_of_stateDir_error {T : Type} (L : Lib T) (d : T) (w : World) (e : Err)
    (he : (stateDir L w).1.2 = some e) :
    loadStateFromFile L d w = (some e, d, (stateDir L w).2) := by
  rcases h : stateDir L w with ⟨⟨p, _ | e1⟩, w1⟩
  · rw [h] at he; simp at he
  · rw [h] at he
    simp only [Option.some.injEq] at he
    subst he
    simp [loadStateFromFile, h]

/-- `saveStateToFile` hands a `stateDir` error back unchanged, in the world
`stateDir` left. -/
theorem save_of_stateDir_error {T : Type} (L : Lib T) (d : T) (w : World) (e : Err)
    (he : (stateDir L w).1.2 = some e) :
    saveStateToFile L d w = (some e, (stateDir L w).2) := by
  rcases h : stateDir L w with ⟨⟨p, _ | e1⟩, w1⟩
  · rw [h] at he; simp at he
  · rw [h] at he
    simp only [Option.some.injEq] at he
    subst he
    simp [saveStateToFile, h]

/-- C6. Environment errors are fatal. `stateDir` returns an error and the
empty path when the current user cannot be determined, when the state
directory cannot be stat'ed for a reason other than non-existence, when it
does not exist and cannot be created, and when a non-directory is in its
place. Whenever `stateDir` returns an error, `loadStateFromFile` and
`saveStateToFile` return that same error, the file system is unchanged and
nothing was opened, loaded, created or saved; and `main` ends through
`log.Fatal` with status 1, whether `stateDir` failed on the way to loading or
on the way to saving. Conversely, a `stateDir` that returns no error
returns `filepath.Join(home, ".bitrot")`, and that path is then a directory. -/
theorem stateDir_environment_errors {T : Type} (L : Lib T) (w : World) :
    (w.home = none → (stateDir L w).1 = ("", some .userLookup))
    ∧ (∀ h, w.home = some h → w.statDenied (L.join h stateDirPrefix) = true →
        (stateDir L w).1 = ("", some .statStateDir))
    ∧ (∀ h, w.home = some h → w.statDenied (L.join h stateDirPrefix) = false →
        w.fs (L.join h stateDirPrefix) = none →
        w.mkdirDenied (L.join h stateDirPrefix) = true →
        (stateDir L w).1 = ("", some .mkdirStateDir))
    ∧ (∀ h n, w.home = some h → w.statDenied (L.join h stateDirPrefix) = false →
        w.fs (L.join h stateDirPrefix) = some n → n.isDir = false →
        (stateDir L w).1 = ("", some (.nonDirectory (L.join h stateDirPrefix))))
    ∧ (∀ e, (stateDir L w).1.2 = some e →
        (stateDir L w).1.1 = ""
        ∧ (∀ d, loadStateFromFile L d w = (some e, d, (stateDir L w).2))
        ∧ (∀ d, saveStateToFile L d w = (some e, (stateDir L w).2))
        ∧ (stateDir L w).2.fs = w.fs
        ∧ (∃ evs, (stateDir L w).2.trace = w.trace ++ evs
            ∧ ∀ p, Event.open p ∉ evs ∧ Event.load p ∉ evs
              ∧ Event.create p ∉ evs ∧ Event.save p ∉ evs)
        ∧ (∀ inv wi, parseFlags L inv wi = (none, w) →
            main L inv wi
              = (1, (stateDir L w).2.log (.fatal "Error loading state DB: " e)))
        ∧ ∀ inv wi w0 dt1 w2 dt2, parseFlags L inv wi = (none, w0) →
            loadStateFromFile L (L.NewDirTree w0.opt.root []) w0 = (none, dt1, w2) →
            compare L dt1 w2 = (some dt2, w) →
            main L inv wi
              = (1, (stateDir L w).2.log (.fatal "Error saving state DB: " e)))
    ∧ (∀ p, (stateDir L w).1 = (p, none) →
        ∃ h, w.home = some h ∧ p = L.join h stateDirPrefix
          ∧ (stateDir L w).2.fs p = some .dir) := by
  refine ⟨?_, ?_, ?_, ?_, ?_, ?_⟩
  · intro hh
    simp [stateDir, userCurrent, hh, World.log]
  · intro h hh hs
    simp [stateDir, userCurrent, osStat, hh, hs, StatErr.isNotExist, World.log]
  · intro h hh hs hf hm
    simp [stateDir, userCurrent, osStat, osMkdir, hh, hs, hf, hm, World.log,
      StatErr.isNotExist]
  · intro h n hh hs hf hn
    simp [stateDir, userCurrent, osStat, hh, hs, hf, hn, World.log]
  · intro e he
    refine ⟨(stateDir_error L w e he).1, fun d => load_of_stateDir_error L d w e he,
      fun d => save_of_stateDir_error L d w e he, (stateDir_error L w e he).2, ?_, ?_, ?_⟩
    · obtain ⟨evs, hev, hall⟩ := stateDir_trace L w
      refine ⟨evs, hev, fun p => ⟨?_, ?_, ?_, ?_⟩⟩ <;> intro hm <;>
        rcases hall _ hm with h | ⟨q, h⟩ | ⟨q, m, h⟩ <;> cases h
    · intro inv wi hflags
      simp [main, hflags, load_of_stateDir_error L _ w e he, logFatal]
    · intro inv wi w0 dt1 w2 dt2 hflags hl hc
      simp [main, hflags, hl, hc, save_of_stateDir_error L _ w e he, logFatal]
  · intro p hp
    exact stateDir_ok L w p hp

/-- C6 at concrete worlds: a user that cannot be looked up (where `main` ends
with status 1), a regular file in the place of the state directory, and a
first run that creates the state directory. -/
theorem stateDir_environment_errors_witness :
    (stateDir exLib { exWorld (exFs none) with home := none }).1 = ("", some .userLookup)
    ∧ (main exLib exInv { exWorld (exFs none) with home := none }).1 = 1
    ∧ (stateDir exLib (exWorld fun p =>
          if p = "/home/u/.bitrot" then some (.regular []) else none)).1
        = ("", some (.nonDirectory "/home/u/.bitrot"))
    ∧ (∃ h, (exWorld fun _ => none).home = some h
        ∧ "/home/u/.bitrot" = exLib.join h stateDirPrefix
        ∧ (stateDir exLib (exWorld fun _ => none)).2.fs "/home/u/.bitrot" = some .dir) :=
  ⟨(stateDir_environment_errors exLib { exWorld (exFs none) with home := none }).1 rfl,
   congrArg Prod.fst
    (((stateDir_environment_errors exLib
        { exWorld (exFs none) with home := none, opt := { root := "/data", verbose := false } }
      ).2.2.2.2.1 .userLookup rfl).2.2.2.2.2.1 exInv
        { exWorld (exFs none) with home := none } rfl),
   (stateDir_environment_errors exLib (exWorld fun p =>
      if p = "/home/u/.bitrot" then some (.regular []) else none)).2.2.2.1
      "/home/u" (.regular []) rfl rfl (by decide) rfl,
   (stateDir_environment_errors exLib (exWorld fun _ => none)).2.2.2.2.2
      "/home/u/.bitrot" (by decide)⟩


/-! ## Loading -/

/-- `parseFlags` changes the options only: it logs nothing and leaves the file
system and the user alone. -/
theorem parseFlags_frame {T : Type} (L : Lib T) (inv : Invocation) (w : World) :
    (parseFlags L inv w).2.trace = w.trace ∧ (parseFlags L inv w).2.fs = w.fs
      ∧ (parseFlags L inv w).2.home = w.home := by
  unfold parseFlags
  split
  · simp
  · split <;> simp

/-- C1. A decode failure is fatal and aborts the run before traversal: when
the command line is accepted, the state directory is available, the state
file of the root is a regular file that can be opened, and `DirTree.Load`
returns an error on its bytes, then `loadStateFromFile` returns that error
and `main` ends through `log.Fatal` with status 1; `Compare`, `os.Create`
and `DirTree.Save` were never called, and the state file still holds the
bytes it held. -/
theorem decode_failure_is_fatal {T : Type} (L : Lib T) (inv : Invocation)
    (w w0 w1 : World) (cdir : String) (bytes : List Nat) (e : Err)
    (hflags : parseFlags L inv w = (none, w0))
    (hdir : stateDir L w0 = ((cdir, none), w1))
    (hstat : w1.statDenied (L.join cdir (stateFile w0.opt.root)) = false)
    (hfile : w1.fs (L.join cdir (stateFile w0.opt.root)) = some (.regular bytes))
    (hopen : w1.openDenied (L.join cdir (stateFile w0.opt.root)) = false)
    (hload : (L.Load (L.NewDirTree w0.opt.root []) bytes).2 = some e) :
    (loadStateFromFile L (L.NewDirTree w0.opt.root []) w0).1 = some e
    ∧ (main L inv w).1 = 1
    ∧ (∃ evs, (main L inv w).2.trace = w.trace ++ evs
        ∧ evs.getLast? = some (.fatal "Error loading state DB: " e)
        ∧ Event.compare ∉ evs ∧ (∀ p, Event.create p ∉ evs) ∧ ∀ p, Event.save p ∉ evs)
    ∧ (main L inv w).2.fs (L.join cdir (stateFile w0.opt.root)) = some (.regular bytes) := by
  have hopt : w1.opt = w0.opt := by
    have h := (stateDir_frame L w0).1
    rw [hdir] at h
    exact h
  obtain ⟨evs0, htr, hall⟩ := stateDir_trace L w0
  rw [hdir] at htr
  replace htr : w1.trace = w0.trace ++ evs0 := htr
  have htr0 : w0.trace = w.trace := by
    have h := (parseFlags_frame L inv w).1
    rw [hflags] at h
    exact h
  rcases hL : L.Load (L.NewDirTree w0.opt.root []) bytes with ⟨d1, _ | e1⟩
  · rw [hL] at hload; simp at hload
  · rw [hL] at hload
    simp only [Option.some.injEq] at hload
    subst hload
    have hl : loadStateFromFile L (L.NewDirTree w0.opt.root []) w0
        = (some e1, d1,
            (osClose (((w1.log (.stat (L.join cdir (stateFile w0.opt.root)))).log
              (.open (L.join cdir (stateFile w0.opt.root)))).log
                (.load (L.join cdir (stateFile w0.opt.root))))
              (L.join cdir (stateFile w0.opt.root))).2) := by
      simp [loadStateFromFile, hdir, hopt, osStat, hstat, hfile, Node.isRegular, osOpen,
        hopen, World.log, hL]
    refine ⟨by rw [hl], ?_, ?_, ?_⟩
    · simp [main, hflags, hl, logFatal]
    · refine ⟨evs0 ++ [.stat (L.join cdir (stateFile w0.opt.root)),
        .open (L.join cdir (stateFile w0.opt.root)),
        .load (L.join cdir (stateFile w0.opt.root)),
        .close (L.join cdir (stateFile w0.opt.root))
          (!w1.closeFails (L.join cdir (stateFile w0.opt.root))),
        .fatal "Error loading state DB: " e1], ?_, ?_, ?_, ?_, ?_⟩
      · simp [main, hflags, hl, logFatal, osClose, World.log, htr, htr0]
      · simp [List.getLast?_append]
      · intro hm
        simp only [List.mem_append, List.mem_cons, List.mem_singleton] at hm
        rcases hm with hm | hm
        · rcases hall _ hm with h | ⟨q, h⟩ | ⟨q, m, h⟩ <;> cases h
        · simp at hm
      · intro p hm
        simp only [List.mem_append, List.mem_cons, List.mem_singleton] at hm
        rcases hm with hm | hm
        · rcases hall _ hm with h | ⟨q, h⟩ | ⟨q, m, h⟩ <;> cases h
        · simp at hm
      · intro p hm
        simp only [List.mem_append, List.mem_cons, List.mem_singleton] at hm
        rcases hm with hm | hm
        · rcases hall _ hm with h | ⟨q, h⟩ | ⟨q, m, h⟩ <;> cases h
        · simp at hm
    · simp [main, hflags, hl, logFatal, osClose, World.log, hfile]

set_option maxRecDepth 100000 in
/-- C1 on a zero-byte state file, which the example `Load` does not decode. -/
theorem decode_failure_is_fatal_witness :
    (loadStateFromFile exLib (exLib.NewDirTree "/data" [])
        (parseFlags exLib exInv (exWorld (exFs (some (.regular []))))).2).1
      = some (.dirTree 1)
    ∧ (main exLib exInv (exWorld (exFs (some (.regular []))))).1 = 1 :=
  have h := decode_failure_is_fatal exLib exInv (exWorld (exFs (some (.regular []))))
    (parseFlags exLib exInv (exWorld (exFs (some (.regular []))))).2
    (stateDir exLib (parseFlags exLib exInv (exWorld (exFs (some (.regular []))))).2).2
    "/home/u/.bitrot" [] (.dirTree 1) rfl rfl rfl (by decide) rfl rfl
  ⟨h.1, h.2.1⟩

/-- What `loadStateFromFile` does once `stateDir` has succeeded, by cases on
what `os.Stat` and `os.Open` find. -/
theorem load_after_stateDir {T : Type} (L : Lib T) (d : T) (w w1 : World) (cdir : String)
    (hdir : stateDir L w = ((cdir, none), w1)) :
    loadStateFromFile L d w =
      if w1.statDenied (L.join cdir (stateFile w.opt.root)) then
        (none, d, w1.log (.stat (L.join cdir (stateFile w.opt.root))))
      else
        match w1.fs (L.join cdir (stateFile w.opt.root)) with
        | some (.regular bs) =>
          if w1.openDenied (L.join cdir (stateFile w.opt.root)) then
            (some (.openFile (L.join cdir (stateFile w.opt.root))), d,
              (w1.log (.stat (L.join cdir (stateFile w.opt.root)))).log
                (.open (L.join cdir (stateFile w.opt.root))))
          else
            ((L.Load d bs).2, (L.Load d bs).1,
              ((((w1.log (.stat (L.join cdir (stateFile w.opt.root)))).log
                (.open (L.join cdir (stateFile w.opt.root)))).log
                (.load (L.join cdir (stateFile w.opt.root)))).log
                (.close (L.join cdir (stateFile w.opt.root))
                  (!w1.closeFails (L.join cdir (stateFile w.opt.root))))))
        | _ => (none, d, w1.log (.stat (L.join cdir (stateFile w.opt.root)))) := by
  have hopt : w1.opt = w.opt := by
    have h := (stateDir_frame L w).1
    rw [hdir] at h
    exact h
  rcases hs : w1.statDenied (L.join cdir (stateFile w.opt.root)) with _ | _
  · rcases hf : w1.fs (L.join cdir (stateFile w.opt.root)) with _ | n
    · simp [loadStateFromFile, hdir, hopt, osStat, hs, hf, World.log]
    · cases n with
      | dir => simp [loadStateFromFile, hdir, hopt, osStat, hs, hf, World.log, Node.isRegular]
      | other => simp [loadStateFromFile, hdir, hopt, osStat, hs, hf, World.log, Node.isRegular]
      | regular bs =>
        rcases ho : w1.openDenied (L.join cdir (stateFile w.opt.root)) with _ | _
        · rcases hL : L.Load d bs with ⟨d1, _ | e⟩ <;>
            simp [loadStateFromFile, hdir, hopt, osStat, hs, hf, World.log, Node.isRegular,
              osOpen, ho, hL, osClose]
        · simp [loadStateFromFile, hdir, hopt, osStat, hs, hf, World.log, Node.isRegular,
            osOpen, ho]
  · simp [loadStateFromFile, hdir, hopt, osStat, hs, World.log]

/-- What `saveStateToFile` does once `stateDir` has succeeded, by cases on
what `os.Create` finds. -/
theorem save_after_stateDir {T : Type} (L : Lib T) (d : T) (w w1 : World) (cdir : String)
    (hdir : stateDir L w = ((cdir, none), w1)) :
    saveStateToFile L d w =
      if w1.createDenied (L.join cdir (stateFile w.opt.root)) then
        (some (.createFile (L.join cdir (stateFile w.opt.root))),
          w1.log (.create (L.join cdir (stateFile w.opt.root))))
      else
        match w1.fs (L.join cdir (stateFile w.opt.root)) with
        | some .dir =>
          (some (.createFile (L.join cdir (stateFile w.opt.root))),
            w1.log (.create (L.join cdir (stateFile w.opt.root))))
        | some .other =>
          ((L.Save d { data := [], room := w1.room (L.join cdir (stateFile w.opt.root)) }).2,
            ((w1.log (.create (L.join cdir (stateFile w.opt.root)))).log
              (.save (L.join cdir (stateFile w.opt.root)))).log
              (.close (L.join cdir (stateFile w.opt.root))
                (!w1.closeFails (L.join cdir (stateFile w.opt.root)))))
        | _ =>
          ((L.Save d { data := [], room := w1.room (L.join cdir (stateFile w.opt.root)) }).2,
            (((((w1.log (.create (L.join cdir (stateFile w.opt.root)))).setNode
              (L.join cdir (stateFile w.opt.root)) (.regular [])).log
              (.save (L.join cdir (stateFile w.opt.root)))).setNode
              (L.join cdir (stateFile w.opt.root))
              (.regular (L.Save d
                { data := [], room := w1.room (L.join cdir (stateFile w.opt.root)) }).1.data)).log
              (.close (L.join cdir (stateFile w.opt.root))
                (!w1.closeFails (L.join cdir (stateFile w.opt.root)))))) := by
  have hopt : w1.opt = w.opt := by
    have h := (stateDir_frame L w).1
    rw [hdir] at h
    exact h
  rcases hc : w1.createDenied (L.join cdir (stateFile w.opt.root)) with _ | _
  · rcases hf : w1.fs (L.join cdir (stateFile w.opt.root)) with _ | n
    · rcases hS : L.Save d { data := [], room := w1.room (L.join cdir (stateFile w.opt.root)) }
        with ⟨wr1, _ | e⟩ <;>
        simp [saveStateToFile, hdir, hopt, osCreate, hc, hf, World.log, World.setNode,
          World.flush, hS, osClose]
    · cases n with
      | dir => simp [saveStateToFile, hdir, hopt, osCreate, hc, hf, World.log]
      | other =>
        rcases hS : L.Save d { data := [], room := w1.room (L.join cdir (stateFile w.opt.root)) }
          with ⟨wr1, _ | e⟩ <;>
          simp [saveStateToFile, hdir, hopt, osCreate, hc, hf, World.log, World.setNode,
            World.flush, hS, osClose]
      | regular bs =>
        rcases hS : L.Save d { data := [], room := w1.room (L.join cdir (stateFile w.opt.root)) }
          with ⟨wr1, _ | e⟩ <;>
          simp [saveStateToFile, hdir, hopt, osCreate, hc, hf, World.log, World.setNode,
            World.flush, hS, osClose]
  · simp [saveStateToFile, hdir, hopt, osCreate, hc, World.log]

/-- What `loadStateFromFile` logs after `stateDir`: one `os.Stat`, and then
only events on the state file of the root. -/
theorem load_events {T : Type} (L : Lib T) (d : T) (w : World) :
    ∃ evs, (loadStateFromFile L d w).2.2.trace = (stateDir L w).2.trace ++ evs
      ∧ ∀ ev ∈ evs, ∃ cdir, (stateDir L w).1 = (cdir, none)
          ∧ (ev = .stat (L.join cdir (stateFile w.opt.root))
            ∨ ev = .open (L.join cdir (stateFile w.opt.root))
            ∨ ev = .load (L.join cdir (stateFile w.opt.root))
            ∨ ∃ b, ev = .close (L.join cdir (stateFile w.opt.root)) b) := by
  rcases h : stateDir L w with ⟨⟨cdir, _ | e⟩, w1⟩
  · rw [load_after_stateDir L d w w1 cdir h]
    split
    · simp [World.log]
    · split
      · split <;> simp [World.log]
      · simp [World.log]
  · refine ⟨[], ?_, by simp⟩
    have he : (stateDir L w).1.2 = some e := by rw [h]
    rw [load_of_stateDir_error L d w e he, h]
    simp

/-- What `saveStateToFile` logs after `stateDir`: only events on the state
file of the root. -/
theorem save_events {T : Type} (L : Lib T) (d : T) (w : World) :
    ∃ evs, (saveStateToFile L d w).2.trace = (stateDir L w).2.trace ++ evs
      ∧ ∀ ev ∈ evs, ∃ cdir, (stateDir L w).1 = (cdir, none)
          ∧ (ev = .create (L.join cdir (stateFile w.opt.root))
            ∨ ev = .save (L.join cdir (stateFile w.opt.root))
            ∨ ∃ b, ev = .close (L.join cdir (stateFile w.opt.root)) b) := by
  rcases h : stateDir L w with ⟨⟨cdir, _ | e⟩, w1⟩
  · rw [save_after_stateDir L d w w1 cdir h]
    split
    · simp [World.log]
    · split <;> simp [World.log, World.setNode]
  · refine ⟨[], ?_, by simp⟩
    have he : (stateDir L w).1.2 = some e := by rw [h]
    rw [save_of_stateDir_error L d w e he, h]
    simp

/-- The trace only grows during `saveStateToFile`. -/
theorem save_trace_grows {T : Type} (L : Lib T) (d : T) (w : World) :
    ∃ evs, (saveStateToFile L d w).2.trace = w.trace ++ evs := by
  obtain ⟨evs0, h0, -⟩ := stateDir_trace L w
  obtain ⟨evs1, h1, -⟩ := save_events L d w
  exact ⟨evs0 ++ evs1, by rw [h1, h0, List.append_assoc]⟩

/-- C2. A missing prior state is not an error and is not routed through
`Load`: when the command line is accepted, the state directory is available
and holds no state file for the root, `loadStateFromFile` returns nil and
leaves the tree exactly as it was handed in; it opens no file and does not
call `DirTree.Load`; and `main` goes on to `Compare` with the tree
`NewDirTree` made. -/
theorem missing_state_is_not_an_error {T : Type} (L : Lib T) (inv : Invocation)
    (w w0 w1 : World) (cdir : String)
    (hflags : parseFlags L inv w = (none, w0))
    (hdir : stateDir L w0 = ((cdir, none), w1))
    (hfile : w1.fs (L.join cdir (stateFile w0.opt.root)) = none) :
    (∀ d, loadStateFromFile L d w0
        = (none, d, w1.log (.stat (L.join cdir (stateFile w0.opt.root)))))
    ∧ (∀ d, ∃ evs, (loadStateFromFile L d w0).2.2.trace = w0.trace ++ evs
        ∧ ∀ p, Event.open p ∉ evs ∧ Event.load p ∉ evs)
    ∧ main L inv w
        = (match compare L (L.NewDirTree w0.opt.root [])
              (w1.log (.stat (L.join cdir (stateFile w0.opt.root)))) with
          | (none, w3) => (1, w3)
          | (some dt2, w3) =>
            match saveStateToFile L dt2 w3 with
            | (some err, w4) => logFatal "Error saving state DB: " err w4
            | (none, w4) => (0, w4))
    ∧ Event.compare ∈ (main L inv w).2.trace := by
  have hl : ∀ d, loadStateFromFile L d w0
      = (none, d, w1.log (.stat (L.join cdir (stateFile w0.opt.root)))) := by
    intro d
    rw [load_after_stateDir L d w0 w1 cdir hdir]
    split
    · rfl
    · simp [hfile]
  have hm : main L inv w
        = (match compare L (L.NewDirTree w0.opt.root [])
              (w1.log (.stat (L.join cdir (stateFile w0.opt.root)))) with
          | (none, w3) => (1, w3)
          | (some dt2, w3) =>
            match saveStateToFile L dt2 w3 with
            | (some err, w4) => logFatal "Error saving state DB: " err w4
            | (none, w4) => (0, w4)) := by
    simp [main, hflags, hl]
  refine ⟨hl, ?_, hm, ?_⟩
  · intro d
    obtain ⟨evs0, htr, hall⟩ := stateDir_trace L w0
    rw [hdir] at htr
    replace htr : w1.trace = w0.trace ++ evs0 := htr
    refine ⟨evs0 ++ [.stat (L.join cdir (stateFile w0.opt.root))], ?_, ?_⟩
    · simp [hl, World.log, htr]
    · intro p
      constructor <;> intro hm <;>
        simp only [List.mem_append, List.mem_singleton] at hm <;>
        rcases hm with hm | hm
      · rcases hall _ hm with h | ⟨q, h⟩ | ⟨q, m, h⟩ <;> cases h
      · cases hm
      · rcases hall _ hm with h | ⟨q, h⟩ | ⟨q, m, h⟩ <;> cases h
      · cases hm
  · rw [hm]
    rcases hc : L.Compare (L.NewDirTree w0.opt.root []) w1.fs with _ | dt2
    · simp [compare, hc, World.log]
    · obtain ⟨evs, hev⟩ := save_trace_grows L dt2
        ((w1.log (.stat (L.join cdir (stateFile w0.opt.root)))).log .compare)
      rcases hs : saveStateToFile L dt2
          ((w1.log (.stat (L.join cdir (stateFile w0.opt.root)))).log .compare)
        with ⟨_ | err, w4⟩
      · rw [hs] at hev
        replace hev : w4.trace
          = ((w1.log (.stat (L.join cdir (stateFile w0.opt.root)))).log .compare).trace
            ++ evs := hev
        have hs2 : saveStateToFile L dt2
            { w1 with trace := w1.trace
              ++ [.stat (L.join cdir (stateFile w0.opt.root)), .compare] } = (none, w4) := by
          simpa [World.log] using hs
        simp [compare, hc, World.log, hs2, hev]
      · rw [hs] at hev
        replace hev : w4.trace
          = ((w1.log (.stat (L.join cdir (stateFile w0.opt.root)))).log .compare).trace
            ++ evs := hev
        have hs2 : saveStateToFile L dt2
            { w1 with trace := w1.trace
              ++ [.stat (L.join cdir (stateFile w0.opt.root)), .compare] }
              = (some err, w4) := by
          simpa [World.log] using hs
        simp [compare, hc, World.log, hs2, hev, logFatal]

set_option maxRecDepth 100000 in
/-- C2 on a first run for `/data`: the state directory exists, the state file does not. -/
theorem missing_state_is_not_an_error_witness :
    (loadStateFromFile exLib (exLib.NewDirTree "/data" [])
        (parseFlags exLib exInv (exWorld (exFs none))).2).1 = none
    ∧ (loadStateFromFile exLib (exLib.NewDirTree "/data" [])
        (parseFlags exLib exInv (exWorld (exFs none))).2).2.1 = exLib.NewDirTree "/data" []
    ∧ Event.compare ∈ (main exLib exInv (exWorld (exFs none))).2.trace :=
  have h := missing_state_is_not_an_error exLib exInv (exWorld (exFs none))
    (parseFlags exLib exInv (exWorld (exFs none))).2
    (stateDir exLib (parseFlags exLib exInv (exWorld (exFs none))).2).2
    "/home/u/.bitrot" rfl rfl (by decide)
  ⟨congrArg Prod.fst (h.1 _), congrArg (fun r => r.2.1) (h.1 _), h.2.2.2⟩

/-! ## Saving -/

set_option maxRecDepth 100000 in
/-- C3 as stated fails: with a valid prior state of three bytes and room for
two more bytes, `DirTree.Save` fails part-way, `saveStateToFile` returns its
error, and the state file then holds the two bytes written, not the prior
state. -/
theorem failed_save_truncates_prior_state :
    (exFullDisk 2).fs exStatePath = some (.regular [1, 2, 3])
    ∧ (saveStateToFile exLib { root := "/data", state := [9, 9, 9, 9] } (exFullDisk 2)).1
        = some (.dirTree 2)
    ∧ (saveStateToFile exLib { root := "/data", state := [9, 9, 9, 9] } (exFullDisk 2)).2.fs
        exStatePath = some (.regular [9, 9]) := by
  decide

/-- C3, amended. A failed save leaves the prior state file intact only when
it fails before the file is opened for writing: if `saveStateToFile` returns
an error because `stateDir` fails or because `os.Create` is refused, the
bytes of the prior state file are what they were. Once `os.Create` has
succeeded the file has been truncated, and after `DirTree.Save` returns, with
or without an error, the file holds exactly the bytes `Save` wrote. -/
theorem failed_save_effect {T : Type} (L : Lib T) (d : T) (w : World) (p : String)
    (bytes : List Nat) (hprior : w.fs p = some (.regular bytes)) :
    (∀ e, (stateDir L w).1.2 = some e →
      (saveStateToFile L d w).1 = some e
      ∧ (saveStateToFile L d w).2.fs p = some (.regular bytes))
    ∧ (∀ cdir, (stateDir L w).1 = (cdir, none) → p = L.join cdir (stateFile w.opt.root) →
      (w.createDenied p = true →
        (saveStateToFile L d w).1 = some (.createFile p)
        ∧ (saveStateToFile L d w).2.fs p = some (.regular bytes))
      ∧ (w.createDenied p = false →
        (saveStateToFile L d w).1 = (L.Save d { data := [], room := w.room p }).2
        ∧ (saveStateToFile L d w).2.fs p
            = some (.regular (L.Save d { data := [], room := w.room p }).1.data))) := by
  have hfs : (stateDir L w).2.fs p = some (.regular bytes) := by
    rcases stateDir_fs L w p with h | ⟨h, -⟩
    · rw [h, hprior]
    · rw [hprior] at h; cases h
  obtain ⟨-, -, -, -, -, hcd, -, hroom⟩ := stateDir_frame L w
  constructor
  · intro e he
    rw [save_of_stateDir_error L d w e he]
    exact ⟨rfl, hfs⟩
  · intro cdir hc hp
    rcases h : stateDir L w with ⟨⟨c, o⟩, w1⟩
    rw [h] at hc hfs hcd hroom
    simp only [Prod.mk.injEq] at hc
    obtain ⟨rfl, rfl⟩ := hc
    replace hfs : w1.fs p = some (.regular bytes) := hfs
    replace hcd : w1.createDenied = w.createDenied := hcd
    replace hroom : w1.room = w.room := hroom
    rw [save_after_stateDir L d w w1 c h, ← hp]
    constructor
    · intro hden
      simp [hcd, hden, World.log, hfs]
    · intro hden
      simp [hcd, hden, hfs, hroom, World.log, World.setNode]

set_option maxRecDepth 100000 in
/-- C3, amended, on the full disk: the file holds what `Save` wrote. -/
theorem failed_save_effect_witness :
    (saveStateToFile exLib { root := "/data", state := [9, 9, 9, 9] } (exFullDisk 2)).2.fs
        exStatePath
      = some (.regular (exLib.Save { root := "/data", state := [9, 9, 9, 9] }
          { data := [], room := (exFullDisk 2).room exStatePath }).1.data) :=
  (((failed_save_effect exLib { root := "/data", state := [9, 9, 9, 9] } (exFullDisk 2)
    exStatePath [1, 2, 3] (by decide)).2 "/home/u/.bitrot" (by decide) (by decide)).2 rfl).2

/-! ## Error propagation -/

set_option maxRecDepth 100000 in
/-- C4 as stated fails. Closing the written state file fails, yet
`saveStateToFile` returns nil and `main` exits with status 0; and `os.Stat`
of an existing state file is denied, yet `loadStateFromFile` returns nil
without loading it and `main` goes on to `Compare` and exits with status 0. -/
theorem close_and_stat_errors_are_swallowed :
    (Event.close exStatePath false ∈ (main exLib exInv exCloseFails).2.trace
      ∧ (main exLib exInv exCloseFails).1 = 0)
    ∧ (exStatDenied.fs exStatePath = some (.regular [1, 2, 3])
      ∧ exStatDenied.statDenied exStatePath = true
      ∧ (loadStateFromFile exLib (exLib.NewDirTree "/data" [])
          (parseFlags exLib exInv exStatDenied).2).1 = none
      ∧ Event.load exStatePath ∉ (main exLib exInv exStatDenied).2.trace
      ∧ Event.compare ∈ (main exLib exInv exStatDenied).2.trace
      ∧ (main exLib exInv exStatDenied).1 = 0) := by
  decide

/-- C4, amended. A failure of `stateDir`, `os.Open`, `DirTree.Load`,
`os.Create` or `DirTree.Save` makes `loadStateFromFile` / `saveStateToFile`
return a non-nil error, and a non-nil error of `parseFlags`,
`loadStateFromFile` or `saveStateToFile` makes `main` end through `log.Fatal`
with status 1 instead of going on: after a failed load `Compare` is never
called. (The result of closing a file is discarded.) -/
theorem state_errors_reach_main {T : Type} (L : Lib T) (d : T) (v : World) :
    (∀ e, (stateDir L v).1.2 = some e →
      (loadStateFromFile L d v).1 = some e ∧ (saveStateToFile L d v).1 = some e)
    ∧ (∀ cdir v1 n, stateDir L v = ((cdir, none), v1) →
        (osStat v1 (L.join cdir (stateFile v.opt.root))).1 = .ok n → n.isRegular = true →
        ((osOpen (osStat v1 (L.join cdir (stateFile v.opt.root))).2
            (L.join cdir (stateFile v.opt.root))).1 = none →
          (loadStateFromFile L d v).1 = some (.openFile (L.join cdir (stateFile v.opt.root))))
        ∧ (∀ r e, (osOpen (osStat v1 (L.join cdir (stateFile v.opt.root))).2
              (L.join cdir (stateFile v.opt.root))).1 = some r →
            (L.Load d r).2 = some e → (loadStateFromFile L d v).1 = some e))
    ∧ (∀ cdir v1, stateDir L v = ((cdir, none), v1) →
        ((osCreate v1 (L.join cdir (stateFile v.opt.root))).1 = none →
          (saveStateToFile L d v).1
            = some (.createFile (L.join cdir (stateFile v.opt.root))))
        ∧ (∀ wr e, (osCreate v1 (L.join cdir (stateFile v.opt.root))).1 = some wr →
            (L.Save d wr).2 = some e → (saveStateToFile L d v).1 = some e))
    ∧ (∀ inv e, (parseFlags L inv v).1 = some e →
        main L inv v = (1, (parseFlags L inv v).2.log (.fatal "" e)))
    ∧ (∀ inv v0 e, parseFlags L inv v = (none, v0) →
        (loadStateFromFile L (L.NewDirTree v0.opt.root []) v0).1 = some e →
        main L inv v
          = (1, (loadStateFromFile L (L.NewDirTree v0.opt.root []) v0).2.2.log
              (.fatal "Error loading state DB: " e))
        ∧ ((loadStateFromFile L (L.NewDirTree v0.opt.root []) v0).2.2.log
              (.fatal "Error loading state DB: " e)).trace.getLast?
            = some (.fatal "Error loading state DB: " e))
    ∧ (∀ inv v0 dt1 v2 dt2 v3 e, parseFlags L inv v = (none, v0) →
        loadStateFromFile L (L.NewDirTree v0.opt.root []) v0 = (none, dt1, v2) →
        compare L dt1 v2 = (some dt2, v3) →
        (saveStateToFile L dt2 v3).1 = some e →
        main L inv v
          = (1, (saveStateToFile L dt2 v3).2.log (.fatal "Error saving state DB: " e))) := by
  refine ⟨?_, ?_, ?_, ?_, ?_, ?_⟩
  · intro e he
    rw [load_of_stateDir_error L d v e he, save_of_stateDir_error L d v e he]
    exact ⟨rfl, rfl⟩
  · intro cdir v1 n hdir hst hreg
    have hopt : v1.opt = v.opt := by
      have h := (stateDir_frame L v).1
      rw [hdir] at h
      exact h
    rcases hs : osStat v1 (L.join cdir (stateFile v.opt.root)) with ⟨r, v2⟩
    rw [hs] at hst
    simp only at hst
    subst hst
    constructor
    · intro ho
      rcases hoo : osOpen v2 (L.join cdir (stateFile v.opt.root)) with ⟨o, v3⟩
      rw [hoo] at ho
      simp only at ho
      subst ho
      simp [loadStateFromFile, hdir, hopt, hs, hreg, hoo]
    · intro r e ho hl
      rcases hoo : osOpen v2 (L.join cdir (stateFile v.opt.root)) with ⟨o, v3⟩
      rw [hoo] at ho
      simp only at ho
      subst ho
      rcases hL : L.Load d r with ⟨d1, le⟩
      rw [hL] at hl
      simp only at hl
      subst hl
      simp [loadStateFromFile, hdir, hopt, hs, hreg, hoo, hL]
  · intro cdir v1 hdir
    have hopt : v1.opt = v.opt := by
      have h := (stateDir_frame L v).1
      rw [hdir] at h
      exact h
    constructor
    · intro hc
      rcases hcc : osCreate v1 (L.join cdir (stateFile v.opt.root)) with ⟨o, v2⟩
      rw [hcc] at hc
      simp only at hc
      subst hc
      simp [saveStateToFile, hdir, hopt, hcc]
    · intro wr e hc hsv
      rcases hcc : osCreate v1 (L.join cdir (stateFile v.opt.root)) with ⟨o, v2⟩
      rw [hcc] at hc
      simp only at hc
      subst hc
      rcases hS : L.Save d wr with ⟨wr1, se⟩
      rw [hS] at hsv
      simp only at hsv
      subst hsv
      simp [saveStateToFile, hdir, hopt, hcc, hS]
  · intro inv e he
    rcases hp : parseFlags L inv v with ⟨o, v0⟩
    rw [hp] at he
    simp only at he
    subst he
    simp [main, hp, logFatal]
  · intro inv v0 e hp hl
    rcases hll : loadStateFromFile L (L.NewDirTree v0.opt.root []) v0 with ⟨o, d1, v2⟩
    rw [hll] at hl
    simp only at hl
    subst hl
    simp [main, hp, hll, logFatal, World.log]
  · intro inv v0 dt1 v2 dt2 v3 e hp hl hc hs
    rcases hss : saveStateToFile L dt2 v3 with ⟨o, v4⟩
    rw [hss] at hs
    simp only at hs
    subst hs
    simp [main, hp, hl, hc, hss, logFatal]

set_option maxRecDepth 100000 in
/-- C4, amended, at concrete worlds: an `os.Open` that is refused on an
existing state file, and a save onto a full disk after a first run. -/
theorem state_errors_reach_main_witness :
    (loadStateFromFile exLib (exLib.NewDirTree "/data" [])
        { exFullDisk 0 with openDenied := fun _ => true }).1
      = some (.openFile ("/home/u/.bitrot" ++ "/" ++ stateFile "/data"))
    ∧ (saveStateToFile exLib { root := "/data", state := [9, 9, 9, 9] } (exFullDisk 2)).1
      = some (.dirTree 2) :=
  ⟨((state_errors_reach_main exLib (exLib.NewDirTree "/data" [])
      { exFullDisk 0 with openDenied := fun _ => true }).2.1 "/home/u/.bitrot"
      (stateDir exLib { exFullDisk 0 with openDenied := fun _ => true }).2
      (.regular [1, 2, 3]) rfl rfl rfl).1 rfl,
   ((state_errors_reach_main exLib { root := "/data", state := [9, 9, 9, 9] }
      (exFullDisk 2)).2.2.1 "/home/u/.bitrot" (stateDir exLib (exFullDisk 2)).2 rfl).2
      { data := [], room := some 2 } (.dirTree 2) (by decide) (by decide)⟩

/-! ## Command-line errors -/

/-- The first event `stateDir` logs is the user lookup. -/
theorem stateDir_logs_user {T : Type} (L : Lib T) (w : World) :
    ∃ rest, (stateDir L w).2.trace = w.trace ++ .userCurrent :: rest := by
  rcases stateDir_outcomes L w with ⟨-, h⟩ | ⟨home, -, ⟨-, h⟩ | ⟨-, -, -, h⟩ | ⟨-, -, -, h⟩
    | ⟨-, -, h⟩ | ⟨-, -, h⟩⟩ <;> rw [h] <;> simp [World.log, World.setNode]

/-- Once the command line is accepted, everything `loadStateFromFile` logged
stays in the trace of `main`. -/
theorem main_trace_after_load {T : Type} (L : Lib T) (inv : Invocation) (w w0 : World)
    (hflags : parseFlags L inv w = (none, w0)) :
    ∃ evs, (main L inv w).2.trace
      = (loadStateFromFile L (L.NewDirTree w0.opt.root []) w0).2.2.trace ++ evs := by
  rcases hl : loadStateFromFile L (L.NewDirTree w0.opt.root []) w0 with ⟨_ | e, d1, w2⟩
  · rcases hc : L.Compare d1 w2.fs with _ | dt2
    · exact ⟨[.compare], by simp [main, hflags, hl, compare, hc, World.log]⟩
    · obtain ⟨evs, hev⟩ := save_trace_grows L dt2 (w2.log .compare)
      rcases hs : saveStateToFile L dt2 (w2.log .compare) with ⟨_ | err, w4⟩
      · rw [hs] at hev
        replace hev : w4.trace = (w2.log .compare).trace ++ evs := hev
        refine ⟨.compare :: evs, ?_⟩
        simp only [main, hflags, hl, compare, hc, hs]
        simp [hev, World.log]
      · rw [hs] at hev
        replace hev : w4.trace = (w2.log .compare).trace ++ evs := hev
        refine ⟨.compare :: evs ++ [.fatal "Error saving state DB: " err], ?_⟩
        simp only [main, hflags, hl, compare, hc, hs]
        simp [hev, World.log, logFatal]
  · exact ⟨[.fatal "Error loading state DB: " e],
      by simp [main, hflags, hl, logFatal, World.log]⟩

set_option maxRecDepth 100000 in
/-- C5 as stated fails. The single argument `/data/a.txt` is a regular file,
not a directory, and yet `main` runs `stateDir` and calls `DirTree.Load` on
the existing state file before `Compare` ends the run; and on a machine
without a state directory the same command line creates the state directory. -/
theorem non_directory_root_reaches_state :
    (exFsFileRoot "/data/a.txt" = some (.regular [104, 105])
      ∧ Event.userCurrent ∈ (main exLib exInvFile (exWorld exFsFileRoot)).2.trace
      ∧ Event.load ("/home/u/.bitrot/" ++ stateFile "/data/a.txt")
          ∈ (main exLib exInvFile (exWorld exFsFileRoot)).2.trace
      ∧ (main exLib exInvFile (exWorld exFsFileRoot)).1 = 1)
    ∧ ((exWorld fun p => if p = "/data/a.txt" then some (.regular []) else none).fs
          "/home/u/.bitrot" = none
      ∧ (main exLib exInvFile
          (exWorld fun p => if p = "/data/a.txt" then some (.regular []) else none)).2.fs
          "/home/u/.bitrot" = some .dir) := by
  decide

/-- C5, amended. With a wrong number of positional arguments `parseFlags`
returns an error, and on any error of `parseFlags` `main` ends through
`log.Fatal` with status 1 before `loadStateFromFile`: nothing but the fatal
message is logged and the file system is unchanged, so no state is read or
written. `parseFlags` does not look at what the root path holds: with a
single argument that can be made absolute it succeeds, and `main` runs
`stateDir` whether or not the root is a directory. -/
theorem bad_arguments_are_fatal {T : Type} (L : Lib T) (inv : Invocation) (w : World) :
    (inv.args.length ≠ 1 → (parseFlags L inv w).1 = some .usage)
    ∧ (∀ err, (parseFlags L inv w).1 = some err →
        (main L inv w).1 = 1
        ∧ (main L inv w).2.trace = w.trace ++ [.fatal "" err]
        ∧ (main L inv w).2.fs = w.fs)
    ∧ (∀ a root, inv.args = [a] → L.abs a = some root →
        (parseFlags L inv w).1 = none
        ∧ (parseFlags L inv w).2.opt.root = root
        ∧ Event.userCurrent ∈ (main L inv w).2.trace) := by
  refine ⟨?_, ?_, ?_⟩
  · intro h
    simp [parseFlags, h]
  · intro err he
    obtain ⟨htr, hfs, -⟩ := parseFlags_frame L inv w
    rcases hp : parseFlags L inv w with ⟨o, w0⟩
    rw [hp] at he htr hfs
    simp only at he htr hfs
    subst he
    simp [main, hp, logFatal, World.log, htr, hfs]
  · intro a root ha habs
    have hp : parseFlags L inv w
        = (none, { w with opt := { root := root, verbose := inv.verbose } }) := by
      simp [parseFlags, ha, habs]
    refine ⟨by rw [hp], by rw [hp], ?_⟩
    obtain ⟨evs, hev⟩ := main_trace_after_load L inv w _ hp
    obtain ⟨evs1, hev1, -⟩ := load_events L (L.NewDirTree root [])
      { w with opt := { root := root, verbose := inv.verbose } }
    obtain ⟨rest, hu⟩ := stateDir_logs_user L
      { w with opt := { root := root, verbose := inv.verbose } }
    rw [hev, hev1, hu]
    simp

set_option maxRecDepth 100000 in
/-- C5, amended, on the command line `bitrot` without a directory, and on
`bitrot /data/a.txt`. -/
theorem bad_arguments_are_fatal_witness :
    (main exLib { verbose := true, args := [] } (exWorld (exFs none))).1 = 1
    ∧ (main exLib { verbose := true, args := [] } (exWorld (exFs none))).2.trace
        = [.fatal "" .usage]
    ∧ Event.userCurrent ∈ (main exLib exInvFile (exWorld exFsFileRoot)).2.trace :=
  have h := bad_arguments_are_fatal exLib { verbose := true, args := [] } (exWorld (exFs none))
  ⟨(h.2.1 .usage (h.1 (by decide))).1, (h.2.1 .usage (h.1 (by decide))).2.1,
   ((bad_arguments_are_fatal exLib exInvFile (exWorld exFsFileRoot)).2.2
      "/data/a.txt" "/data/a.txt" rfl rfl).2.2⟩

/-! ## The state file name -/

set_option maxRecDepth 100000 in
/-- The embedded MD5 on the test suite of RFC 1321 (one, and two, blocks). -/
theorem md5_test_suite :
    lowerHex (md5Sum (goBytes "")) = "d41d8cd98f00b204e9800998ecf8427e"
    ∧ lowerHex (md5Sum (goBytes "a")) = "0cc175b9c0f1b6a831c399e269772661"
    ∧ lowerHex (md5Sum (goBytes "abc")) = "900150983cd24fb0d6963f7d28e17f72"
    ∧ lowerHex (md5Sum (goBytes "message digest")) = "f96b697d7cb7938d525a2f31aaf161d0"
    ∧ lowerHex (md5Sum (goBytes
        "12345678901234567890123456789012345678901234567890123456789012345678901234567890"))
      = "57edf4a22be3c955ac49da2e2107b67a" := by
  decide

/-- C7. The state location is a deterministic function of the root path, its
content fingerprint: `stateFile root` is `bitrot_`, then the lowercase
hexadecimal rendering of the MD5 digest of the root's bytes, then `.db`; the
digest has 16 bytes; and equal roots give equal names. -/
theorem stateFile_is_fingerprint_name (root : String) :
    stateFile root = "bitrot_" ++ lowerHex (md5Sum (goBytes root)) ++ ".db"
    ∧ (md5Sum (goBytes root)).length = 16
    ∧ ∀ root2, root2 = root → stateFile root2 = stateFile root := by
  have h : stateFile root = "bitrot_" ++ lowerHex (md5Sum (goBytes root)) ++ ".db" := by
    apply String.ext
    rw [stateFile_data, String.data_append, String.data_append]
  exact ⟨h, md5Sum_length _, fun _ h2 => by rw [h2]⟩

set_option maxRecDepth 100000 in
/-- C7 on the root `/data`. -/
theorem stateFile_is_fingerprint_name_witness :
    stateFile "/data" = "bitrot_4caa791091d21d23e63637080226f370.db"
    ∧ (md5Sum (goBytes "/data")).length = 16 :=
  ⟨by decide, (stateFile_is_fingerprint_name "/data").2.1⟩

/-- C10. The state file can never escape the state directory, and load and
save agree on it. For every root the name has 42 characters: `bitrot_`, 32
characters from `0123456789abcdef`, `.db`; it contains no path separator.
`loadStateFromFile` opens and loads, and `saveStateToFile` creates and saves,
no other path than `filepath.Join` of the state directory and that name. -/
theorem stateFile_stays_in_stateDir (root : String) :
    (stateFile root).length = 42
    ∧ (∃ h : List Char, (stateFile root).data = "bitrot_".data ++ h ++ ".db".data
        ∧ h.length = 32 ∧ ∀ c ∈ h, c ∈ "0123456789abcdef".data)
    ∧ '/' ∉ (stateFile root).data
    ∧ ∀ {T : Type} (L : Lib T) (d1 d2 : T) (w1 w2 : World) (cdir : String),
        w1.opt.root = root → w2.opt.root = root →
        (stateDir L w1).1 = (cdir, none) → (stateDir L w2).1 = (cdir, none) →
        (∃ evs, (loadStateFromFile L d1 w1).2.2.trace = (stateDir L w1).2.trace ++ evs
          ∧ ∀ p, (Event.open p ∈ evs ∨ Event.load p ∈ evs) →
              p = L.join cdir (stateFile root))
        ∧ (∃ evs, (saveStateToFile L d2 w2).2.trace = (stateDir L w2).2.trace ++ evs
          ∧ ∀ p, (Event.create p ∈ evs ∨ Event.save p ∈ evs) →
              p = L.join cdir (stateFile root)) := by
  have hlen : (lowerHex (md5Sum (goBytes root))).data.length = 32 := by
    rw [lowerHex_length, md5Sum_length]
  have hchars := lowerHex_chars (md5Sum (goBytes root))
  refine ⟨?_, ⟨_, stateFile_data root, hlen, hchars⟩, ?_, ?_⟩
  · show (stateFile root).data.length = 42
    rw [stateFile_data, List.length_append, List.length_append, hlen]
    rfl
  · rw [stateFile_data]
    intro hm
    simp only [List.mem_append] at hm
    rcases hm with (hm | hm) | hm
    · revert hm; decide
    · have := hchars _ hm
      revert this; decide
    · revert hm; decide
  · intro T L d1 d2 w1 w2 cdir hr1 hr2 hd1 hd2
    constructor
    · obtain ⟨evs, hev, hall⟩ := load_events L d1 w1
      refine ⟨evs, hev, ?_⟩
      intro p hp
      rcases hp with hp | hp <;> obtain ⟨c, hc, hcase⟩ := hall _ hp <;>
        rw [hd1] at hc <;> simp only [Prod.mk.injEq, and_true] at hc <;> subst hc <;>
        rw [hr1] at hcase <;>
        rcases hcase with h | h | h | ⟨b, h⟩ <;> cases h <;> rfl
    · obtain ⟨evs, hev, hall⟩ := save_events L d2 w2
      refine ⟨evs, hev, ?_⟩
      intro p hp
      rcases hp with hp | hp <;> obtain ⟨c, hc, hcase⟩ := hall _ hp <;>
        rw [hd2] at hc <;> simp only [Prod.mk.injEq, and_true] at hc <;> subst hc <;>
        rw [hr2] at hcase <;>
        rcases hcase with h | h | ⟨b, h⟩ <;> cases h <;> rfl

set_option maxRecDepth 100000 in
/-- C10 at a root with dots, separators and a NUL character, and on the
example world: the file `loadStateFromFile` opens is the file
`saveStateToFile` creates. -/
theorem stateFile_stays_in_stateDir_witness :
    stateFile "/data/../data\x00/x" = "bitrot_39ccedd0963efd856c8041a78fac6b67.db"
    ∧ '/' ∉ (stateFile "/data/../data\x00/x").data
    ∧ Event.open ("/home/u/.bitrot/" ++ stateFile "/data")
        ∈ (loadStateFromFile exLib (exLib.NewDirTree "/data" []) (exFullDisk 9)).2.2.trace
    ∧ Event.create ("/home/u/.bitrot/" ++ stateFile "/data")
        ∈ (saveStateToFile exLib (exLib.NewDirTree "/data" []) (exFullDisk 9)).2.trace
    ∧ ∃ evs, (loadStateFromFile exLib (exLib.NewDirTree "/data" []) (exFullDisk 9)).2.2.trace
          = (stateDir exLib (exFullDisk 9)).2.trace ++ evs
        ∧ ∀ p, (Event.open p ∈ evs ∨ Event.load p ∈ evs) →
            p = exLib.join "/home/u/.bitrot" (stateFile "/data") :=
  ⟨by decide, (stateFile_stays_in_stateDir "/data/../data\x00/x").2.2.1, by decide, by decide,
   ((stateFile_stays_in_stateDir "/data").2.2.2 exLib (exLib.NewDirTree "/data" [])
      (exLib.NewDirTree "/data" []) (exFullDisk 9) (exFullDisk 9) "/home/u/.bitrot"
      rfl rfl (by decide) (by decide)).1⟩
/-! ## Comparison -/

/-- A path is a key of a tree state exactly when the state has an entry for it. -/
theorem mem_paths_iff (s : TreeState) (p : String) :
    p ∈ s.paths ↔ (s.entry? p).isSome = true := by
  simp only [TreeState.paths, TreeState.entry?, List.mem_map, List.find?_isSome,
    decide_eq_true_eq]

/-- C9. Classification completeness of the comparison, on the contract the
specification gives for it: every path in the union of the key sets of the
loaded and the current state is in exactly one of Added, Removed, Unchanged,
Changed; Added is current-only, Removed is loaded-only, Unchanged is both
with equal digest, Changed is both with different digest; the four sets hold
no path outside the union; and with an empty loaded state Added is the whole
current key set while Removed, Changed (and Unchanged) are empty. -/
theorem classify_partitions (loaded current : TreeState) (p : String)
    (hp : p ∈ loaded.paths ∨ p ∈ current.paths) :
    ((p ∈ (classify loaded current).added ∧ p ∉ (classify loaded current).removed
        ∧ p ∉ (classify loaded current).unchanged ∧ p ∉ (classify loaded current).changed)
      ∨ (p ∉ (classify loaded current).added ∧ p ∈ (classify loaded current).removed
        ∧ p ∉ (classify loaded current).unchanged ∧ p ∉ (classify loaded current).changed)
      ∨ (p ∉ (classify loaded current).added ∧ p ∉ (classify loaded current).removed
        ∧ p ∈ (classify loaded current).unchanged ∧ p ∉ (classify loaded current).changed)
      ∨ (p ∉ (classify loaded current).added ∧ p ∉ (classify loaded current).removed
        ∧ p ∉ (classify loaded current).unchanged ∧ p ∈ (classify loaded current).changed))
    ∧ (p ∈ (classify loaded current).added ↔ p ∈ current.paths ∧ p ∉ loaded.paths)
    ∧ (p ∈ (classify loaded current).removed ↔ p ∈ loaded.paths ∧ p ∉ current.paths)
    ∧ (p ∈ (classify loaded current).unchanged ↔
        ∃ a b, loaded.entry? p = some a ∧ current.entry? p = some b ∧ a.digest = b.digest)
    ∧ (p ∈ (classify loaded current).changed ↔
        ∃ a b, loaded.entry? p = some a ∧ current.entry? p = some b ∧ a.digest ≠ b.digest)
    ∧ (∀ q, (q ∈ (classify loaded current).added ∨ q ∈ (classify loaded current).removed
          ∨ q ∈ (classify loaded current).unchanged ∨ q ∈ (classify loaded current).changed) →
        q ∈ loaded.paths ∨ q ∈ current.paths)
    ∧ (classify { entries := [] } current).added = current.paths
    ∧ (classify { entries := [] } current).removed = []
    ∧ (classify { entries := [] } current).changed = []
    ∧ (classify { entries := [] } current).unchanged = [] := by
  have hl := mem_paths_iff loaded p
  have hc := mem_paths_iff current p
  rw [hl, hc] at hp
  refine ⟨?_, ?_, ?_, ?_, ?_, ?_, ?_, ?_, ?_, ?_⟩
  · simp only [classify, List.mem_filter, hl, hc]
    rcases h1 : loaded.entry? p with _ | a <;> rcases h2 : current.entry? p with _ | b <;>
      simp [h1, h2] at hp ⊢
    by_cases hd : a.digest = b.digest <;> simp [hd]
  · simp only [classify, List.mem_filter, hl, hc]
    rcases h1 : loaded.entry? p with _ | a <;> simp
  · simp only [classify, List.mem_filter, hl, hc]
    rcases h2 : current.entry? p with _ | b <;> simp
  · simp only [classify, List.mem_filter, hl]
    rcases h1 : loaded.entry? p with _ | a <;> rcases h2 : current.entry? p with _ | b <;>
      simp
  · simp only [classify, List.mem_filter, hl]
    rcases h1 : loaded.entry? p with _ | a <;> rcases h2 : current.entry? p with _ | b <;>
      simp
  · intro q hq
    simp only [classify, List.mem_filter] at hq
    rcases hq with hq | hq | hq | hq
    · exact Or.inr hq.1
    · exact Or.inl hq.1
    · exact Or.inl hq.1
    · exact Or.inl hq.1
  · simp [classify, TreeState.entry?]
  · simp [classify, TreeState.paths]
  · simp [classify, TreeState.paths]
  · simp [classify, TreeState.paths]

set_option maxRecDepth 100000 in
/-- C9 on the scenario of the specification: `a.txt` is unchanged, `b.txt`
was removed; and on a first run both files are added. -/
theorem classify_partitions_witness :
    classify exLoaded exCurrent
      = { added := [], removed := ["b.txt"], unchanged := ["a.txt"], changed := [] }
    ∧ (classify { entries := [] } exLoaded).added = ["a.txt", "b.txt"]
    ∧ ("b.txt" ∈ (classify exLoaded exCurrent).removed
        ↔ "b.txt" ∈ exLoaded.paths ∧ "b.txt" ∉ exCurrent.paths) :=
  ⟨by decide,
   (classify_partitions exLoaded exLoaded "a.txt" (by decide)).2.2.2.2.2.2.1,
   (classify_partitions exLoaded exCurrent "b.txt" (by decide)).2.2.1⟩

/-! ## From one run to the next -/

/-- A succeeding `stateDir` found `os.Stat` of the state directory allowed,
and changed the file system at most at the state directory. -/
theorem stateDir_ok_frame {T : Type} (L : Lib T) (w : World) (cdir : String)
    (hp : (stateDir L w).1 = (cdir, none)) :
    w.statDenied cdir = false ∧ ∀ q, q ≠ cdir → (stateDir L w).2.fs q = w.fs q := by
  rcases stateDir_outcomes L w with ⟨-, h⟩ | ⟨home, hh, ⟨-, h⟩ | ⟨-, -, -, h⟩ | ⟨hs, -, -, h⟩
    | ⟨-, -, h⟩ | ⟨hs, -, h⟩⟩ <;> rw [h] at hp ⊢ <;> simp [World.log, World.setNode] at hp ⊢
  · subst hp
    exact ⟨hs, fun q hq => by simp [hq]⟩
  · subst hp
    exact hs

/-- When the state directory is there and may be stat'ed, `stateDir` returns it. -/
theorem stateDir_of_dir {T : Type} (L : Lib T) (w : World) (h : String)
    (hh : w.home = some h) (hs : w.statDenied (L.join h stateDirPrefix) = false)
    (hf : w.fs (L.join h stateDirPrefix) = some .dir) :
    stateDir L w = ((L.join h stateDirPrefix, none),
      (w.log .userCurrent).log (.stat (L.join h stateDirPrefix))) := by
  simp [stateDir, userCurrent, osStat, hh, hs, hf, World.log, Node.isDir]

/-- What one run saves, the next run loads: after `saveStateToFile` onto a
path that is free or a regular file, `loadStateFromFile` for the same root
hands `DirTree.Load` exactly the bytes `DirTree.Save` wrote, and returns what
`Load` returns. -/
theorem saved_state_is_loaded {T : Type} (L : Lib T) (d d2 : T) (w : World) (cdir : String)
    (hdir : (stateDir L w).1 = (cdir, none))
    (hne : L.join cdir (stateFile w.opt.root) ≠ cdir)
    (hcreate : w.createDenied (L.join cdir (stateFile w.opt.root)) = false)
    (hnode : ∀ n, w.fs (L.join cdir (stateFile w.opt.root)) = some n → n.isRegular = true)
    (hstat : w.statDenied (L.join cdir (stateFile w.opt.root)) = false)
    (hopen : w.openDenied (L.join cdir (stateFile w.opt.root)) = false) :
    (saveStateToFile L d w).2.fs (L.join cdir (stateFile w.opt.root))
      = some (.regular (L.Save d
          { data := [], room := w.room (L.join cdir (stateFile w.opt.root)) }).1.data)
    ∧ (loadStateFromFile L d2 (saveStateToFile L d w).2).1
      = (L.Load d2 (L.Save d
          { data := [], room := w.room (L.join cdir (stateFile w.opt.root)) }).1.data).2
    ∧ (loadStateFromFile L d2 (saveStateToFile L d w).2).2.1
      = (L.Load d2 (L.Save d
          { data := [], room := w.room (L.join cdir (stateFile w.opt.root)) }).1.data).1 := by
  obtain ⟨h, hh, hcd, hdirfs⟩ := stateDir_ok L w cdir hdir
  obtain ⟨hsd, hother⟩ := stateDir_ok_frame L w cdir hdir
  obtain ⟨hopt, hhome, hsden, -, hoden, hcden, -, hroom⟩ := stateDir_frame L w
  rcases hsd1 : stateDir L w with ⟨⟨c, o⟩, w1⟩
  rw [hsd1] at hdir hdirfs hother hopt hhome hsden hoden hcden hroom
  simp only [Prod.mk.injEq] at hdir
  obtain ⟨rfl, rfl⟩ := hdir
  simp only at hdirfs hother hopt hhome hsden hoden hcden hroom
  have hfile : w1.fs (L.join c (stateFile w.opt.root))
      = w.fs (L.join c (stateFile w.opt.root)) := hother _ hne
  have hsave : ∃ w2, saveStateToFile L d w = ((L.Save d
        { data := [], room := w.room (L.join c (stateFile w.opt.root)) }).2, w2)
      ∧ w2.fs (L.join c (stateFile w.opt.root)) = some (.regular (L.Save d
          { data := [], room := w.room (L.join c (stateFile w.opt.root)) }).1.data)
      ∧ w2.fs c = some .dir ∧ w2.home = w.home ∧ w2.opt = w.opt
      ∧ w2.statDenied = w.statDenied ∧ w2.openDenied = w.openDenied := by
    refine ⟨(((((w1.log (.create (L.join c (stateFile w.opt.root)))).setNode
        (L.join c (stateFile w.opt.root)) (.regular [])).log
        (.save (L.join c (stateFile w.opt.root)))).setNode
        (L.join c (stateFile w.opt.root))
        (.regular (L.Save d
          { data := [], room := w.room (L.join c (stateFile w.opt.root)) }).1.data)).log
        (.close (L.join c (stateFile w.opt.root))
          (!w1.closeFails (L.join c (stateFile w.opt.root))))), ?_, ?_⟩
    · rw [save_after_stateDir L d w w1 c hsd1]
      rcases hf : w.fs (L.join c (stateFile w.opt.root)) with _ | n
      · simp [hcden, hcreate, hfile, hf, hroom]
      · have hreg := hnode n hf
        cases n with
        | dir => simp [Node.isRegular] at hreg
        | other => simp [Node.isRegular] at hreg
        | regular bs => simp [hcden, hcreate, hfile, hf, hroom]
    · simp [World.log, World.setNode, hne.symm, hdirfs, hhome, hopt, hsden, hoden]
  obtain ⟨w2, hs2, hf2, hd2, hh2, ho2, hsd2, hod2⟩ := hsave
  rw [hs2]
  refine ⟨hf2, ?_⟩
  have hdir2 := stateDir_of_dir L w2 h (by rw [hh2, hh]) (by rw [hsd2, ← hcd]; exact hsd)
    (by rw [← hcd]; exact hd2)
  rw [← hcd] at hdir2
  rw [load_after_stateDir L d2 w2 _ c hdir2]
  simp [World.log, ho2, hsd2, hstat, hf2, hod2, hopen]

set_option maxRecDepth 100000 in
/-- The state saved on the example world is the state the next load decodes. -/
theorem saved_state_is_loaded_witness :
    (loadStateFromFile exLib (exLib.NewDirTree "/data" [])
        (saveStateToFile exLib { root := "/data", state := [9, 9, 9, 9] } (exFullDisk 9)).2).2.1
      = { root := "/data", state := [9, 9, 9, 9] } :=
  (saved_state_is_loaded exLib { root := "/data", state := [9, 9, 9, 9] }
    (exLib.NewDirTree "/data" []) (exFullDisk 9) "/home/u/.bitrot" (by decide) (by decide)
    rfl (by decide) rfl rfl).2.2

/-- Nothing `loadStateFromFile` logs is an `os.Create` or a `Save`. -/
theorem load_writes_nothing {T : Type} (L : Lib T) (d : T) (w : World) :
    ∃ evs, (loadStateFromFile L d w).2.2.trace = w.trace ++ evs
      ∧ ∀ p, Event.create p ∉ evs ∧ Event.save p ∉ evs := by
  obtain ⟨evs0, h0, hall0⟩ := stateDir_trace L w
  obtain ⟨evs1, h1, hall1⟩ := load_events L d w
  refine ⟨evs0 ++ evs1, by rw [h1, h0, List.append_assoc], ?_⟩
  intro p
  constructor <;> intro hm <;> simp only [List.mem_append] at hm <;> rcases hm with hm | hm
  · rcases hall0 _ hm with h | ⟨q, h⟩ | ⟨q, m, h⟩ <;> cases h
  · obtain ⟨c, -, h | h | h | ⟨b, h⟩⟩ := hall1 _ hm <;> cases h
  · rcases hall0 _ hm with h | ⟨q, h⟩ | ⟨q, m, h⟩ <;> cases h
  · obtain ⟨c, -, h | h | h | ⟨b, h⟩⟩ := hall1 _ hm <;> cases h

/-- The state is written only after the comparison: the trace of every run
splits into a part without `os.Create` and `Save`, and a part that, if it is
there at all, starts with the call of `Compare`. -/
theorem no_write_before_compare {T : Type} (L : Lib T) (inv : Invocation) (w : World) :
    ∃ pre post, (main L inv w).2.trace = w.trace ++ pre ++ post
      ∧ (∀ p, Event.create p ∉ pre ∧ Event.save p ∉ pre)
      ∧ (post = [] ∨ post.head? = some .compare) := by
  rcases hp : parseFlags L inv w with ⟨_ | err, w0⟩
  · have htr0 : w0.trace = w.trace := by
      have h := (parseFlags_frame L inv w).1
      rw [hp] at h
      exact h
    obtain ⟨evs, hev, hall⟩ := load_writes_nothing L (L.NewDirTree w0.opt.root []) w0
    rcases hl : loadStateFromFile L (L.NewDirTree w0.opt.root []) w0 with ⟨_ | e, d1, w2⟩
    · rw [hl] at hev
      replace hev : w2.trace = w0.trace ++ evs := hev
      obtain ⟨rest, hrest⟩ := main_trace_after_load L inv w w0 hp
      rw [hl] at hrest
      replace hrest : (main L inv w).2.trace = w2.trace ++ rest := hrest
      refine ⟨evs, rest, by rw [hrest, hev, htr0], hall, Or.inr ?_⟩
      have hmain : (main L inv w).2.trace = w2.trace ++ rest := hrest
      rcases hc : L.Compare d1 w2.fs with _ | dt2
      · have : (main L inv w).2.trace = w2.trace ++ [.compare] := by
          simp [main, hp, hl, compare, hc, World.log]
        rw [this] at hmain
        have := List.append_cancel_left hmain
        rw [← this]
        rfl
      · obtain ⟨evs2, hev2⟩ := save_trace_grows L dt2 (w2.log .compare)
        have : (main L inv w).2.trace = w2.trace ++ (.compare :: evs2)
            ∨ ∃ err, (main L inv w).2.trace
              = w2.trace ++ (.compare :: (evs2 ++ [.fatal "Error saving state DB: " err])) := by
          rcases hs : saveStateToFile L dt2 (w2.log .compare) with ⟨_ | err, w4⟩
          · rw [hs] at hev2
            replace hev2 : w4.trace = (w2.log .compare).trace ++ evs2 := hev2
            left
            simp only [main, hp, hl, compare, hc, hs]
            simp [hev2, World.log]
          · rw [hs] at hev2
            replace hev2 : w4.trace = (w2.log .compare).trace ++ evs2 := hev2
            right
            refine ⟨err, ?_⟩
            simp only [main, hp, hl, compare, hc, hs]
            simp [hev2, World.log, logFatal]
        rcases this with h | ⟨err, h⟩ <;> rw [h] at hmain <;>
          have := List.append_cancel_left hmain <;> rw [← this] <;> rfl
    · rw [hl] at hev
      replace hev : w2.trace = w0.trace ++ evs := hev
      refine ⟨evs ++ [.fatal "Error loading state DB: " e], [], ?_, ?_, Or.inl rfl⟩
      · simp [main, hp, hl, logFatal, World.log, hev, htr0]
      · intro p
        constructor <;> intro hm <;> simp only [List.mem_append, List.mem_singleton] at hm <;>
          rcases hm with hm | hm
        · exact (hall p).1 hm
        · cases hm
        · exact (hall p).2 hm
        · cases hm
  · have htr0 : w0.trace = w.trace := by
      have h := (parseFlags_frame L inv w).1
      rw [hp] at h
      exact h
    refine ⟨[.fatal "" err], [], ?_, ?_, Or.inl rfl⟩
    · simp [main, hp, logFatal, World.log, htr0]
    · intro p
      simp

end Bitrot
